import Mathlib

/-!
# Verification of the DuetIAP flashing state machine (src/src/iap.cpp)

This file is a shallow embedding of the in-application-programming (IAP)
firmware updater in `src/src/iap.cpp`, together with proofs about its
flashing state machine, its two block sources (UF2/raw file and SPI
host-link), its CRC16 checksum engine, its retry policy, its progress
reporting and its reset behaviour.

Modelling conventions:
* Machine integers become `Nat`; flash memory and byte buffers become
  functions `Nat → Nat` (byte value at an address/index).
* Hardware and I/O outcomes (return codes of `flash_unlock`,
  `flash_erase_sector`, `flash_write`, `flash_lock`, `f_lseek`, `f_read`,
  SPI transfer completion, `millis()`) are supplied by an environment
  record `Env`, one per invocation of the `writeBinary` step.
* The two mutually exclusive compilation variants (`IAP_VIA_SPI` defined
  or not) become an explicit `Variant` parameter; the chip family
  embedded is the SAM4E/SAM4S one (per-page unlock/lock, non-uniform
  8K/48K/64K sectors), which is the general case in the source.
* `millis() - t` is modelled by truncated `Nat` subtraction, which agrees
  with the `uint32_t` arithmetic of the source as long as the clock has
  not wrapped around since `t` was sampled.
* Header constants (`FirmwareFlashStart`, `FirmwareFlashEnd`,
  `IFLASH_ADDR`, `IFLASH_PAGE_SIZE`, `blockReadSize`, `maxRetries`,
  `TransferTimeout`, `TransferCompleteDelay`) live in `iap.h`, which is
  not part of the sources; they are abstract fields of a `Config` record.
-/

namespace Iap

/-- Process states of the updater. The enum itself is declared in `iap.h`
(not among the sources). Modelled from the spec: the state machine order is
Initializing, UnlockingFlash, ErasingFlash, WritingUpgrade,
VerifyingChecksum, SendingChecksumOK, SendingChecksumError, LockingFlash;
the source compares states with `>=` (`state >= WritingUpgrade` in `Reset`),
which uses this declaration order. -/
inductive ProcessState where
  | Initializing
  | UnlockingFlash
  | ErasingFlash
  | WritingUpgrade
  | VerifyingChecksum
  | SendingChecksumOK
  | SendingChecksumError
  | LockingFlash
  deriving DecidableEq, Repr

/-- Numeric value of a state, following the declaration order (used to model
the C enum comparison `state >= WritingUpgrade`). -/
def ProcessState.toNat : ProcessState → Nat
  | .Initializing => 0
  | .UnlockingFlash => 1
  | .ErasingFlash => 2
  | .WritingUpgrade => 3
  | .VerifyingChecksum => 4
  | .SendingChecksumOK => 5
  | .SendingChecksumError => 6
  | .LockingFlash => 7

/-- Enum comparison `a >= b` on process states. -/
def stateGe (a b : ProcessState) : Bool := b.toNat ≤ a.toNat

/-- Compilation variant: `IAP_VIA_SPI` defined (host-link source) or not
(SD-card file source). -/
inductive Variant where
  | file
  | spi
  deriving DecidableEq, Repr

/-- Constants that the source takes from `iap.h` / the flash driver headers
(not among the sources); kept abstract. -/
structure Config where
  firmwareFlashStart : Nat
  firmwareFlashEnd : Nat
  iflashAddr : Nat
  pageSize : Nat
  blockReadSize : Nat
  maxRetries : Nat
  transferTimeout : Nat
  transferCompleteDelay : Nat

/-- The global mutable session state of `iap.cpp`: the `state`, `flashPos`,
`retry`, `bytesRead`, `bytesWritten`, `haveDataInBuffer`,
`reportNextPercent`, `readData`, `transferPending`, `transferStartTime`,
`writeData[0]`, `firmwareFileSize` and `isUf2File` globals. -/
structure MachineState where
  state : ProcessState
  flashPos : Nat
  retry : Nat
  bytesRead : Nat
  bytesWritten : Nat
  haveDataInBuffer : Bool
  reportNextPercent : Nat
  readData : Nat → Nat
  transferPending : Bool
  transferStartTime : Nat
  writeAck : Nat
  firmwareFileSize : Nat
  isUf2File : Bool

/-- One 512-byte UF2 record as declared by `struct UF2_Block` in the source
(32-byte header, 476 data bytes of which the first 256 are significant, and
an end magic). -/
structure UF2_Block where
  magicStart0 : Nat
  magicStart1 : Nat
  flags : Nat
  targetAddr : Nat
  payloadSize : Nat
  blockNo : Nat
  numBlocks : Nat
  fileSize : Nat
  data : Nat → Nat
  magicEnd : Nat

/-- Outcome of one `f_read` of a UF2 record: I/O error (`FRESULT ≠ FR_OK`),
short read (`locBytesRead != sizeof(uf2Buffer)`), or a full record. -/
inductive RecordRead where
  | ioErr
  | short
  | ok (rec : UF2_Block)

/-- Outcome of the raw-layout `f_read` of up to `blockReadSize` bytes:
I/O error, or `n` bytes read with their contents. -/
inductive RawRead where
  | ioErr
  | ok (n : Nat) (data : Nat → Nat)

/-- The `FlashVerifyRequest` record sent by the host after the last data
block (declared in a header, fields per the source use:
`request->firmwareLength` and `request->crc16`). -/
structure FlashVerifyRequest where
  firmwareLength : Nat
  crc16 : Nat

/-- Environment of one `writeBinary` invocation: the hardware, clock and
I/O responses the code observes during that call. -/
structure Env where
  millisNow : Nat
  flash : Nat → Nat
  flashAfterOp : Nat → Nat
  unlockOk : Bool
  eraseOk : Bool
  writeOk : Bool
  lockOk : Bool
  spiComplete : Bool
  spiData : Nat → Nat
  spiRequest : FlashVerifyRequest
  fileSeekOk : Bool
  fileRecordAt : Nat → RecordRead
  fileRawRead : RawRead

/-- Little-endian 32-bit word read at byte address `p`, as performed by
`*reinterpret_cast<const uint32_t*>(p)` in `IsSectorErased`. -/
def word32 (flash : Nat → Nat) (p : Nat) : Nat :=
  flash p + 256 * flash (p + 1) + 65536 * flash (p + 2) + 16777216 * flash (p + 3)

/-- Source function `IsSectorErased(addr, sectorSize)`: reads the full range one 32-bit word
at a time (`p = addr; p < addr + sectorSize; p += 4`) and checks every word
equals `0xFFFFFFFF`. -/
def IsSectorErased (flash : Nat → Nat) (addr sectorSize : Nat) : Bool :=
  (List.range ((sectorSize + 3) / 4)).all fun i =>
    word32 flash (addr + 4 * i) == 0xFFFFFFFF

/-- Byte-exact `memcmp(readData + bufOff, (const void *)addr, n) == 0`
comparison of a buffer slice against flash contents. -/
def memcmpEq (buf : Nat → Nat) (bufOff : Nat) (flash : Nat → Nat) (addr n : Nat) : Bool :=
  (List.range n).all fun i => buf (bufOff + i) == flash (addr + i)

/-- Bytes of the flash range `[start, start + len)` as a list, as consumed by
`CRC16(reinterpret_cast<const char*>(FirmwareFlashStart), length)`. -/
def flashBytes (flash : Nat → Nat) (start len : Nat) : List Nat :=
  (List.range len).map fun i => flash (start + i)

/-- Sector size at an address for the SAM4E/SAM4S chip family, as computed
in the `ErasingFlash` case: two 8K sectors, then one 48K sector, then 64K
sectors. -/
def sectorSizeAt (cfg : Config) (flashPos : Nat) : Nat :=
  if flashPos - cfg.iflashAddr < 16 * 1024 then 8 * 1024
  else if flashPos - cfg.iflashAddr = 16 * 1024 then 48 * 1024
  else 64 * 1024

/-- The 256-entry lookup table of `CRC16` in the source, verbatim. -/
def crc16_table : List Nat := [
  0x0000, 0xC0C1, 0xC181, 0x0140, 0xC301, 0x03C0, 0x0280, 0xC241,
  0xC601, 0x06C0, 0x0780, 0xC741, 0x0500, 0xC5C1, 0xC481, 0x0440,
  0xCC01, 0x0CC0, 0x0D80, 0xCD41, 0x0F00, 0xCFC1, 0xCE81, 0x0E40,
  0x0A00, 0xCAC1, 0xCB81, 0x0B40, 0xC901, 0x09C0, 0x0880, 0xC841,
  0xD801, 0x18C0, 0x1980, 0xD941, 0x1B00, 0xDBC1, 0xDA81, 0x1A40,
  0x1E00, 0xDEC1, 0xDF81, 0x1F40, 0xDD01, 0x1DC0, 0x1C80, 0xDC41,
  0x1400, 0xD4C1, 0xD581, 0x1540, 0xD701, 0x17C0, 0x1680, 0xD641,
  0xD201, 0x12C0, 0x1380, 0xD341, 0x1100, 0xD1C1, 0xD081, 0x1040,
  0xF001, 0x30C0, 0x3180, 0xF141, 0x3300, 0xF3C1, 0xF281, 0x3240,
  0x3600, 0xF6C1, 0xF781, 0x3740, 0xF501, 0x35C0, 0x3480, 0xF441,
  0x3C00, 0xFCC1, 0xFD81, 0x3D40, 0xFF01, 0x3FC0, 0x3E80, 0xFE41,
  0xFA01, 0x3AC0, 0x3B80, 0xFB41, 0x3900, 0xF9C1, 0xF881, 0x3840,
  0x2800, 0xE8C1, 0xE981, 0x2940, 0xEB01, 0x2BC0, 0x2A80, 0xEA41,
  0xEE01, 0x2EC0, 0x2F80, 0xEF41, 0x2D00, 0xEDC1, 0xEC81, 0x2C40,
  0xE401, 0x24C0, 0x2580, 0xE541, 0x2700, 0xE7C1, 0xE681, 0x2640,
  0x2200, 0xE2C1, 0xE381, 0x2340, 0xE101, 0x21C0, 0x2080, 0xE041,
  0xA001, 0x60C0, 0x6180, 0xA141, 0x6300, 0xA3C1, 0xA281, 0x6240,
  0x6600, 0xA6C1, 0xA781, 0x6740, 0xA501, 0x65C0, 0x6480, 0xA441,
  0x6C00, 0xACC1, 0xAD81, 0x6D40, 0xAF01, 0x6FC0, 0x6E80, 0xAE41,
  0xAA01, 0x6AC0, 0x6B80, 0xAB41, 0x6900, 0xA9C1, 0xA881, 0x6840,
  0x7800, 0xB8C1, 0xB981, 0x7940, 0xBB01, 0x7BC0, 0x7A80, 0xBA41,
  0xBE01, 0x7EC0, 0x7F80, 0xBF41, 0x7D00, 0xBDC1, 0xBC81, 0x7C40,
  0xB401, 0x74C0, 0x7580, 0xB541, 0x7700, 0xB7C1, 0xB681, 0x7640,
  0x7200, 0xB2C1, 0xB381, 0x7340, 0xB101, 0x71C0, 0x7080, 0xB041,
  0x5000, 0x90C1, 0x9181, 0x5140, 0x9301, 0x53C0, 0x5280, 0x9241,
  0x9601, 0x56C0, 0x5780, 0x9741, 0x5500, 0x95C1, 0x9481, 0x5440,
  0x9C01, 0x5CC0, 0x5D80, 0x9D41, 0x5F00, 0x9FC1, 0x9E81, 0x5E40,
  0x5A00, 0x9AC1, 0x9B81, 0x5B40, 0x9901, 0x59C0, 0x5880, 0x9841,
  0x8801, 0x48C0, 0x4980, 0x8941, 0x4B00, 0x8BC1, 0x8A81, 0x4A40,
  0x4E00, 0x8EC1, 0x8F81, 0x4F40, 0x8D01, 0x4DC0, 0x4C80, 0x8C41,
  0x4400, 0x84C1, 0x8581, 0x4540, 0x8701, 0x47C0, 0x4680, 0x8641,
  0x8201, 0x42C0, 0x4380, 0x8341, 0x4100, 0x81C1, 0x8081, 0x4040]

/-- One byte step of the source's table-driven `CRC16`:
`x = Crc ^ buffer[i]; Crc = (Crc >> 8) ^ crc16_table[x & 0x00FF]`. -/
def crc16Step (crc b : Nat) : Nat :=
  (crc >>> 8) ^^^ crc16_table.getD ((crc ^^^ b) &&& 0xFF) 0

/-- The source's `CRC16(buffer, length)`: table-driven CRC with initial
value `65535` and no final XOR, over the bytes of the buffer. -/
def CRC16 (buffer : List Nat) : Nat :=
  buffer.foldl crc16Step 65535

/-- Modelled from the spec: one bit step of the reference reflected CRC-16
(reflected polynomial 0x8005, i.e. 0xA001), used as the reference algorithm
the spec appeals to ("must match the reference algorithm bit-for-bit"). -/
def crcBitStep (c : Nat) : Nat :=
  if c % 2 = 1 then (c >>> 1) ^^^ 0xA001 else c >>> 1

/-- Modelled from the spec: one byte step of the reference reflected CRC-16
(xor the byte into the low bits, then eight bit steps). -/
def crcByteStep (crc b : Nat) : Nat :=
  crcBitStep^[8] (crc ^^^ b)

/-- Modelled from the spec: reference reflected CRC-16 with a given initial
value and no final XOR. -/
def crc16_ref (init : Nat) (buffer : List Nat) : Nat :=
  buffer.foldl crcByteStep init

/-- Modelled from the spec: reference CRC-16/ARC (initial value 0x0000,
reflected, no final XOR) named by the spec as the algorithm `CRC16` should
match bit-for-bit. -/
def crc16_arc (buffer : List Nat) : Nat := crc16_ref 0 buffer

/-- Reference CRC-16 with initial value all-ones (the CRC-16/MODBUS
parameters), which is what the source's initial value `65535` gives. -/
def crc16_modbus (buffer : List Nat) : Nat := crc16_ref 0xFFFF buffer

/-- The constant `reportPercentIncrement = 20` of the source. -/
def reportPercentIncrement : Nat := 20

/-- Source function `ShowProgress()`: computes
`percentDone = (100 * (flashPos - FirmwareFlashStart)) / totalSize`, and if
`percentDone >= reportNextPercent` emits the percentage and advances
`reportNextPercent` by `reportPercentIncrement`. Returns the emitted
percentage (if any) and the new `reportNextPercent`. -/
def ShowProgress (cfg : Config) (totalSize flashPos reportNextPercent : Nat) :
    Option Nat × Nat :=
  let percentDone := 100 * (flashPos - cfg.firmwareFlashStart) / totalSize
  if reportNextPercent ≤ percentDone then
    (some percentDone, reportNextPercent + reportPercentIncrement)
  else
    (none, reportNextPercent)

/-- The `totalSize` used by `ShowProgress`: the whole flash region for the
SPI variant, and `firmwareFileSize` (halved for UF2 files) for the file
variant. -/
def totalSizeOf (cfg : Config) (variant : Variant) (s : MachineState) : Nat :=
  match variant with
  | .spi => cfg.firmwareFlashEnd - cfg.firmwareFlashStart
  | .file => if s.isUf2File then s.firmwareFileSize / 2 else s.firmwareFileSize

/-- Variant of `ShowProgress` in a semantics where `size_t` division by zero is
undefined behaviour: defined only when the divisor is nonzero. -/
def ShowProgressChecked (cfg : Config) (totalSize flashPos reportNextPercent : Nat) :
    Option (Option Nat × Nat) :=
  if totalSize = 0 then none
  else some (ShowProgress cfg totalSize flashPos reportNextPercent)

/-- The size check of `openBinary()`: `maxFirmwareFileSize` is the region
capacity (doubled for UF2 files); the file is rejected only when
`info.fsize > maxFirmwareFileSize` (no lower bound is enforced). -/
def openBinarySizeCheckOk (cfg : Config) (isUf2 : Bool) (fsize : Nat) : Bool :=
  let maxFirmwareFileSize := cfg.firmwareFlashEnd - cfg.firmwareFlashStart
  let maxFirmwareFileSize := if isUf2 then maxFirmwareFileSize * 2 else maxFirmwareFileSize
  !(decide (fsize > maxFirmwareFileSize))

/-- Constant `MagicStart0Val` of `UF2_Block`. -/
def MagicStart0Val : Nat := 0x0A324655

/-- Constant `MagicStart1Val` of `UF2_Block`. -/
def MagicStart1Val : Nat := 0x9E5D5157

/-- Constant `MagicEndVal` of `UF2_Block`. -/
def MagicEndVal : Nat := 0x0AB16F30

/-- Result of `ReadBlockUf2` / file `ReadBlock`: transient failure (the
function incremented `retry` and returned `false`), fatal structural error
(the function reported a diagnostic naming an offset and called
`Reset(false)`), or success with the buffer contents and the final value of
`bytesRead`. -/
inductive Uf2Result where
  | transientFail
  | fatalBadMagic (offset : Nat)
  | fatalBadData (offset : Nat)
  | ok (buf : Nat → Nat) (bytesRead : Nat)

/-- The `do { ... } while (bytesRead < blockReadSize)` loop body of
`ReadBlockUf2`, one call per iteration: at loop entry, if
`seekPos + bytesRead * 2 == firmwareFileSize` the rest of the buffer is
filled with `0xFF` and the call succeeds; otherwise the next 512-byte record
is read (`readAt` is indexed by the record number within this call), its
outcome classified exactly as in the source: read error or short read are
transient (`retry++; return false`); bad start/end magics report
`bad UF2 block at offset <seekPos + bytesRead>` and reset; a wrong target
address or payload size reports
`unexpected data in UF2 block at offset <seekPos + bytesRead>` and resets;
otherwise 256 payload bytes are appended and the loop continues while
`bytesRead < blockReadSize`. -/
def readBlockUf2Go (cfg : Config) (firmwareFileSize flashPos seekPos : Nat)
    (readAt : Nat → RecordRead) (bytesRead : Nat) (buf : Nat → Nat) : Uf2Result :=
  if seekPos + bytesRead * 2 = firmwareFileSize then
    .ok (fun i => if i < bytesRead then buf i else 0xFF) bytesRead
  else
    match readAt (bytesRead / 256) with
    | .ioErr => .transientFail
    | .short => .transientFail
    | .ok rec =>
      if rec.magicStart0 ≠ MagicStart0Val ∨ rec.magicStart1 ≠ MagicStart1Val ∨
          rec.magicEnd ≠ MagicEndVal then
        .fatalBadMagic (seekPos + bytesRead)
      else if rec.targetAddr ≠ flashPos + bytesRead ∨ rec.payloadSize ≠ 256 then
        .fatalBadData (seekPos + bytesRead)
      else
        let buf1 := fun i =>
          if bytesRead ≤ i ∧ i < bytesRead + 256 then rec.data (i - bytesRead) else buf i
        if _h : bytesRead + 256 < cfg.blockReadSize then
          readBlockUf2Go cfg firmwareFileSize flashPos seekPos readAt (bytesRead + 256) buf1
        else
          .ok buf1 (bytesRead + 256)
termination_by cfg.blockReadSize - bytesRead
decreasing_by omega

/-- The seek position of `ReadBlockUf2`:
`(flashPos - FirmwareFlashStart) * 2`. -/
def uf2SeekPos (cfg : Config) (flashPos : Nat) : Nat :=
  (flashPos - cfg.firmwareFlashStart) * 2

/-- Source function `ReadBlockUf2()`: seek to `uf2SeekPos` (a failed `f_lseek` is a
transient failure), then run the record-decoding loop starting with
`bytesRead = 0`. -/
def ReadBlockUf2 (cfg : Config) (firmwareFileSize flashPos : Nat)
    (seekOk : Bool) (readAt : Nat → RecordRead) : Uf2Result :=
  if seekOk then
    readBlockUf2Go cfg firmwareFileSize flashPos (uf2SeekPos cfg flashPos) readAt 0
      (fun _ => 0)
  else
    .transientFail

/-- The file-variant `ReadBlock()`: dispatches to `ReadBlockUf2` for `.uf2`
files; for the raw layout it seeks to `flashPos - FirmwareFlashStart`,
reads up to `blockReadSize` bytes (seek or read error is transient), and
pads the buffer past `bytesRead` with `0xFF` when the read was short. -/
def ReadBlockFile (cfg : Config) (s : MachineState) (env : Env) : Uf2Result :=
  if s.isUf2File then
    ReadBlockUf2 cfg s.firmwareFileSize s.flashPos env.fileSeekOk env.fileRecordAt
  else if env.fileSeekOk then
    match env.fileRawRead with
    | .ioErr => .transientFail
    | .ok n data =>
      if n < cfg.blockReadSize then
        .ok (fun i => if i < n then data i else 0xFF) n
      else
        .ok data n
  else
    .transientFail

/-- Terminal classification of one `writeBinary` invocation: the loop
continues (`running`), `Reset(false)` was reached (`fatalReset`), or
`Reset(true)` was reached after a successful update (`successReset`). -/
inductive Outcome where
  | running
  | fatalReset
  | successReset
  deriving DecidableEq, Repr

/-- Result of one `writeBinary` invocation: the outcome, the session state
at the end of the call (for a reset outcome, the state at the moment
`Reset` was entered), and whether the hardware erase primitive
(`flash_erase_sector`) was invoked during the call. -/
structure StepResult where
  outcome : Outcome
  st : MachineState
  eraseInvoked : Bool

/-- Outcome of the block-acquisition part of the `WritingUpgrade` case
(`if (!haveDataInBuffer) ... ReadBlock()`): `ready s1` means a buffered
block is available and the page write proceeds on `s1`; `wait s1` means
`ReadBlock` returned `false` without touching `retry` (SPI transfer not
complete yet, or a fresh transfer was armed); `transient` means `ReadBlock`
returned `false` after incrementing `retry`; `fatal` means `ReadBlock`
called `Reset(false)`. -/
inductive AcquireResult where
  | ready (s1 : MachineState)
  | wait (s1 : MachineState)
  | transient
  | fatal

/-- Block acquisition in `WritingUpgrade`. If a block is already buffered,
proceed. Otherwise call the variant's `ReadBlock`; when it returns `true`
the caller sets `haveDataInBuffer = true; retry = 0; bytesWritten = 0`.
The SPI `ReadBlock` is inlined here: with a transfer pending, completion
yields a full block; otherwise, if something was already written
(`flashPos != FirmwareFlashStart`) and more than `TransferCompleteDelay`
elapsed, an all-`0xFF` block with `bytesRead = 0` is synthesized
(end-of-image); otherwise, past `TransferTimeout` the call is fatal; with
no transfer pending a new one is armed (`setup_spi`). -/
def writeAcquire (cfg : Config) (variant : Variant) (s : MachineState) (env : Env) :
    AcquireResult :=
  if s.haveDataInBuffer then .ready s
  else
    match variant with
    | .file =>
      match ReadBlockFile cfg s env with
      | .transientFail => .transient
      | .fatalBadMagic _ => .fatal
      | .fatalBadData _ => .fatal
      | .ok buf n =>
        .ready { s with haveDataInBuffer := true, retry := 0, bytesWritten := 0,
                        bytesRead := n, readData := buf }
    | .spi =>
      if s.transferPending then
        if env.spiComplete then
          .ready { s with transferPending := false, haveDataInBuffer := true, retry := 0,
                          bytesWritten := 0, bytesRead := cfg.blockReadSize,
                          readData := env.spiData }
        else if s.flashPos ≠ cfg.firmwareFlashStart ∧
            env.millisNow - s.transferStartTime > cfg.transferCompleteDelay then
          .ready { s with haveDataInBuffer := true, retry := 0, bytesWritten := 0,
                          bytesRead := 0, readData := fun _ => 0xFF }
        else if env.millisNow - s.transferStartTime > cfg.transferTimeout then
          .fatal
        else
          .wait s
      else
        .wait { s with transferPending := true, transferStartTime := env.millisNow }

/-- The `UnlockingFlash` case (SAM4E/SAM4S path): unlock one page; on
success `flashPos += pageSize; retry = 0`, and at the region end reset the
cursor and move to `ErasingFlash`; on failure `retry++`. -/
def stepUnlocking (cfg : Config) (s : MachineState) (env : Env) : StepResult :=
  if env.unlockOk then
    let s1 := { s with flashPos := s.flashPos + cfg.pageSize, retry := 0 }
    if s1.flashPos ≥ cfg.firmwareFlashEnd then
      ⟨.running, { s1 with flashPos := cfg.firmwareFlashStart, state := .ErasingFlash }, false⟩
    else
      ⟨.running, s1, false⟩
  else
    ⟨.running, { s with retry := s.retry + 1 }, false⟩

/-- The `ErasingFlash` case: compute the sector size at the cursor; skip
the hardware erase when the sector already reads fully erased
(`IsSectorErased(flashPos, sectorSize) || flash_erase_sector(flashPos)`),
then re-check that the sector is erased; on success `retry = 0;
flashPos += sectorSize`, otherwise `++retry`; finally, when the cursor has
reached the region end, reset it, clear `haveDataInBuffer` (and
`transferPending` in the SPI build) and move to `WritingUpgrade`. When the
erase is skipped the re-check reads the same unchanged memory. -/
def stepErasing (cfg : Config) (variant : Variant) (s : MachineState) (env : Env) :
    StepResult :=
  let sectorSize := sectorSizeAt cfg s.flashPos
  let preErased := IsSectorErased env.flash s.flashPos sectorSize
  let memAfter := if preErased then env.flash else env.flashAfterOp
  let s1 :=
    if preErased || env.eraseOk then
      if IsSectorErased memAfter s.flashPos sectorSize then
        { s with retry := 0, flashPos := s.flashPos + sectorSize }
      else
        { s with retry := s.retry + 1 }
    else
      { s with retry := s.retry + 1 }
  let s2 :=
    if s1.flashPos ≥ cfg.firmwareFlashEnd then
      { s1 with flashPos := cfg.firmwareFlashStart, haveDataInBuffer := false,
                transferPending := if variant = .spi then false else s1.transferPending,
                state := .WritingUpgrade }
    else
      s1
  ⟨.running, s2, !preErased⟩

/-- The `WritingUpgrade` case: acquire a block if none is buffered, then
write one page (`flash_write(flashPos, readData + bytesWritten, pageSize)`)
and verify it byte-exactly
(`memcmp(readData + bytesWritten, flashPos, pageSize)`); a failed write or
a verify mismatch increments `retry` and leaves everything else unchanged;
on success `retry = 0`, the write offset and cursor advance by one page and
`ShowProgress()` runs; when the block is fully written it is retired, and
if it was the last one (`bytesRead < blockReadSize`) the file variant
closes the file and moves to `LockingFlash` while the SPI variant arms the
checksum-request transfer and moves to `VerifyingChecksum`. -/
def stepWriting (cfg : Config) (variant : Variant) (s : MachineState) (env : Env) :
    StepResult :=
  match writeAcquire cfg variant s env with
  | .transient => ⟨.running, { s with retry := s.retry + 1 }, false⟩
  | .fatal => ⟨.fatalReset, s, false⟩
  | .wait s1 => ⟨.running, s1, false⟩
  | .ready s1 =>
    if env.writeOk then
      if memcmpEq s1.readData s1.bytesWritten env.flashAfterOp s1.flashPos cfg.pageSize then
        let s2 := { s1 with retry := 0, bytesWritten := s1.bytesWritten + cfg.pageSize,
                            flashPos := s1.flashPos + cfg.pageSize }
        let s3 := { s2 with reportNextPercent :=
          (ShowProgress cfg (totalSizeOf cfg variant s2) s2.flashPos s2.reportNextPercent).2 }
        if s3.bytesWritten = cfg.blockReadSize then
          let s4 := { s3 with haveDataInBuffer := false }
          if s4.bytesRead < cfg.blockReadSize then
            match variant with
            | .spi =>
              ⟨.running, { s4 with state := .VerifyingChecksum, transferPending := true,
                                   transferStartTime := env.millisNow }, false⟩
            | .file =>
              ⟨.running, { s4 with state := .LockingFlash }, false⟩
          else
            ⟨.running, s4, false⟩
        else
          ⟨.running, s3, false⟩
      else
        ⟨.running, { s1 with retry := s1.retry + 1 }, false⟩
    else
      ⟨.running, { s1 with retry := s1.retry + 1 }, false⟩

/-- The `VerifyingChecksum` case (SPI build only): past `TransferTimeout`
the call is fatal; on transfer completion the received
`FlashVerifyRequest` is compared against the locally computed `CRC16` over
`[FirmwareFlashStart, FirmwareFlashStart + firmwareLength)`: on a match the
acknowledgement byte `0x0C` is staged and the state becomes
`SendingChecksumOK`, on a mismatch `0xFF` is staged and the state becomes
`SendingChecksumError`; either way `retry = 0` and a one-byte transfer is
armed (`setup_spi(1)`). -/
def stepVerifying (cfg : Config) (s : MachineState) (env : Env) : StepResult :=
  if env.millisNow - s.transferStartTime > cfg.transferTimeout then
    ⟨.fatalReset, s, false⟩
  else if env.spiComplete then
    let crc := CRC16 (flashBytes env.flash cfg.firmwareFlashStart
      env.spiRequest.firmwareLength)
    if env.spiRequest.crc16 = crc then
      ⟨.running, { s with writeAck := 0x0C, state := .SendingChecksumOK, retry := 0,
                          transferPending := true, transferStartTime := env.millisNow },
        false⟩
    else
      ⟨.running, { s with writeAck := 0xFF, state := .SendingChecksumError, retry := 0,
                          transferPending := true, transferStartTime := env.millisNow },
        false⟩
  else
    ⟨.running, s, false⟩

/-- The `SendingChecksumOK` case (SPI build only): a timeout is tolerated
(the image is already verified) and the state moves to `LockingFlash`; on
transfer completion the state also moves on to `LockingFlash`. -/
def stepSendingOK (cfg : Config) (s : MachineState) (env : Env) : StepResult :=
  if env.millisNow - s.transferStartTime > cfg.transferTimeout then
    ⟨.running, { s with state := .LockingFlash }, false⟩
  else if env.spiComplete then
    ⟨.running, { s with state := .LockingFlash, transferPending := false }, false⟩
  else
    ⟨.running, s, false⟩

/-- The `SendingChecksumError` case (SPI build only): a timeout is fatal;
on transfer completion the cursor is reset to the region start, the state
returns to `WritingUpgrade` and `retry = 0`, so the whole image is written
again. -/
def stepSendingError (cfg : Config) (s : MachineState) (env : Env) : StepResult :=
  if env.millisNow - s.transferStartTime > cfg.transferTimeout then
    ⟨.fatalReset, s, false⟩
  else if env.spiComplete then
    ⟨.running, { s with flashPos := cfg.firmwareFlashStart, state := .WritingUpgrade,
                        retry := 0, transferPending := false }, false⟩
  else
    ⟨.running, s, false⟩

/-- The `LockingFlash` case (SAM4E/SAM4S path): lock one page; on success
advance the cursor, and at the region end report success and reboot
(`Reset(true)`); below the end, `retry = 0`; on failure `retry++`. -/
def stepLocking (cfg : Config) (s : MachineState) (env : Env) : StepResult :=
  if env.lockOk then
    let s1 := { s with flashPos := s.flashPos + cfg.pageSize }
    if s1.flashPos ≥ cfg.firmwareFlashEnd then
      ⟨.successReset, s1, false⟩
    else
      ⟨.running, { s1 with retry := 0 }, false⟩
  else
    ⟨.running, { s with retry := s.retry + 1 }, false⟩

/-- One invocation of `writeBinary()`: first the global retry bound check
(`retry > maxRetries` reports the failing state and retry count and calls
`Reset(false)` before any step runs), then the `switch (state)`.
`Initializing` falls through into `UnlockingFlash` after setting the state.
The checksum states are compiled out of the file build and are modelled as
unreachable no-ops there. -/
def writeBinary (cfg : Config) (variant : Variant) (s : MachineState) (env : Env) :
    StepResult :=
  if s.retry > cfg.maxRetries then
    ⟨.fatalReset, s, false⟩
  else
    match s.state with
    | .Initializing => stepUnlocking cfg { s with state := .UnlockingFlash } env
    | .UnlockingFlash => stepUnlocking cfg s env
    | .ErasingFlash => stepErasing cfg variant s env
    | .WritingUpgrade => stepWriting cfg variant s env
    | .VerifyingChecksum =>
      match variant with
      | .spi => stepVerifying cfg s env
      | .file => ⟨.running, s, false⟩
    | .SendingChecksumOK =>
      match variant with
      | .spi => stepSendingOK cfg s env
      | .file => ⟨.running, s, false⟩
    | .SendingChecksumError =>
      match variant with
      | .spi => stepSendingError cfg s env
      | .file => ⟨.running, s, false⟩
    | .LockingFlash => stepLocking cfg s env

/-- Observable effects of `Reset(success)` on the flash and boot
configuration: whether the last diagnostic message (`formatBuffer`) was
written to the start of the flash region, and whether the boot-from-flash
GPNVM bit was cleared so the device restarts into the bootloader (recovery
mode). Both happen only on the failure path and only when
`state >= WritingUpgrade`; the device always reboots afterwards. -/
structure ResetEffect where
  persistedMessage : Bool
  clearedBootFlag : Bool
  deriving DecidableEq, Repr

/-- Source function `Reset(success)`: on the failure path, only when the state has reached
`WritingUpgrade` ("Only start from bootloader if the firmware couldn't be
written entirely"), the last error message is written to the start of the
flash region and GPNVM bit 1 is cleared; in every other case nothing is
persisted. The reboot itself is unconditional. -/
def ResetModel (success : Bool) (st : ProcessState) : ResetEffect :=
  if !success && stateGe st .WritingUpgrade then
    ⟨true, true⟩
  else
    ⟨false, false⟩

/-- Classifier for the `ErasingFlash` branches: the step succeeded when the
skip-or-erase disjunction held and the re-check found the sector erased. -/
def eraseSucceeds (cfg : Config) (s : MachineState) (env : Env) : Bool :=
  let sectorSize := sectorSizeAt cfg s.flashPos
  let preErased := IsSectorErased env.flash s.flashPos sectorSize
  (preErased || env.eraseOk) &&
    IsSectorErased (if preErased then env.flash else env.flashAfterOp) s.flashPos sectorSize

/-- Classifier for the `WritingUpgrade` branches: the page write step
succeeded (a block was available or just acquired, the hardware write
returned OK and the read-back verify matched). -/
def writeSucceeds (cfg : Config) (variant : Variant) (s : MachineState) (env : Env) :
    Bool :=
  match writeAcquire cfg variant s env with
  | .ready s1 =>
    env.writeOk && memcmpEq s1.readData s1.bytesWritten env.flashAfterOp s1.flashPos
      cfg.pageSize
  | _ => false

/-- Classifier for the `WritingUpgrade` branches: the step failed
recoverably (transient read failure, hardware write failure, or read-back
verify mismatch). -/
def writeFailsRecoverably (cfg : Config) (variant : Variant) (s : MachineState)
    (env : Env) : Bool :=
  match writeAcquire cfg variant s env with
  | .transient => true
  | .ready s1 =>
    !(env.writeOk && memcmpEq s1.readData s1.bytesWritten env.flashAfterOp s1.flashPos
      cfg.pageSize)
  | _ => false

/-- Classifier for the SPI exchange states: the awaited transfer completed
before the timeout. -/
def spiExchangeCompletes (cfg : Config) (s : MachineState) (env : Env) : Bool :=
  !(decide (env.millisNow - s.transferStartTime > cfg.transferTimeout)) && env.spiComplete

/-- Per-state classifier: the currently attempted step of `writeBinary`
completed successfully during this invocation. -/
def stepSucceeded (cfg : Config) (variant : Variant) (s : MachineState) (env : Env) :
    Bool :=
  match s.state with
  | .Initializing | .UnlockingFlash => env.unlockOk
  | .ErasingFlash => eraseSucceeds cfg s env
  | .WritingUpgrade => writeSucceeds cfg variant s env
  | .VerifyingChecksum | .SendingChecksumOK | .SendingChecksumError =>
    decide (variant = .spi) && spiExchangeCompletes cfg s env
  | .LockingFlash => env.lockOk

/-- Per-state classifier: the currently attempted step of `writeBinary`
failed recoverably during this invocation (a retryable hardware or I/O
failure; waiting on a pending transfer is neither a success nor a
failure). -/
def stepFailedRecoverably (cfg : Config) (variant : Variant) (s : MachineState)
    (env : Env) : Bool :=
  match s.state with
  | .Initializing | .UnlockingFlash => !env.unlockOk
  | .ErasingFlash => !eraseSucceeds cfg s env
  | .WritingUpgrade => writeFailsRecoverably cfg variant s env
  | .VerifyingChecksum | .SendingChecksumOK | .SendingChecksumError => false
  | .LockingFlash => !env.lockOk

/-- The retry count the currently attempted step starts from: normally the
incoming `retry`, except that in `WritingUpgrade` a successful block
acquisition within the same invocation first resets `retry` to zero (the
page write is a new step). -/
def retryBase (cfg : Config) (variant : Variant) (s : MachineState) (env : Env) : Nat :=
  match s.state with
  | .WritingUpgrade =>
    match writeAcquire cfg variant s env with
    | .ready s1 => s1.retry
    | _ => s.retry
  | _ => s.retry

/-- Reachability invariant of the machine used by the retry-policy theorem:
in the acknowledgement states the retry counter is zero (both states are
entered only through `VerifyingChecksum`, which clears it). -/
def ackStatesRetryZero (s : MachineState) : Prop :=
  (s.state = .SendingChecksumOK ∨ s.state = .SendingChecksumError) → s.retry = 0

/-- The sequence of progress reports over successive `ShowProgress` calls:
given the flash cursor position at each call, returns the list of
(threshold in force, emitted percentage) pairs of the calls that emitted a
message, threading `reportNextPercent` through. -/
def progressTrace (cfg : Config) (totalSize : Nat) :
    Nat → List Nat → List (Nat × Nat)
  | _, [] => []
  | reportNext, p :: ps =>
    match ShowProgress cfg totalSize p reportNext with
    | (some pct, reportNext1) => (reportNext, pct) :: progressTrace cfg totalSize reportNext1 ps
    | (none, reportNext1) => progressTrace cfg totalSize reportNext1 ps

/-- A small concrete configuration used by witnesses and counterexamples:
a 16-byte flash region of 4-byte pages starting at address 1000, blocks of
8 bytes, at most 3 retries. -/
def cfg0 : Config :=
  { firmwareFlashStart := 1000, firmwareFlashEnd := 1016, iflashAddr := 1000,
    pageSize := 4, blockReadSize := 8, maxRetries := 3,
    transferTimeout := 500, transferCompleteDelay := 200 }

/-- A concrete configuration with a region large enough to hold several
sectors, used by erase-phase witnesses. -/
def cfgE : Config :=
  { firmwareFlashStart := 1000, firmwareFlashEnd := 20000, iflashAddr := 0,
    pageSize := 4, blockReadSize := 8, maxRetries := 3,
    transferTimeout := 500, transferCompleteDelay := 200 }

/-- A concrete base machine state used by witnesses and counterexamples. -/
def st0 : MachineState :=
  { state := .Initializing, flashPos := 1000, retry := 0, bytesRead := 0,
    bytesWritten := 0, haveDataInBuffer := false, reportNextPercent := 20,
    readData := fun _ => 0, transferPending := false, transferStartTime := 0,
    writeAck := 0, firmwareFileSize := 0, isUf2File := false }

/-- A concrete base environment used by witnesses and counterexamples:
every hardware operation succeeds and flash reads back erased. -/
def env0 : Env :=
  { millisNow := 0, flash := fun _ => 0xFF, flashAfterOp := fun _ => 0xFF,
    unlockOk := true, eraseOk := true, writeOk := true, lockOk := true,
    spiComplete := false, spiData := fun _ => 0, spiRequest := ⟨0, 0⟩,
    fileSeekOk := true, fileRecordAt := fun _ => .ioErr, fileRawRead := .ioErr }

/-- A concrete UF2 record with wrong magics, used by the C2 witness. -/
def uf2RecBad : UF2_Block :=
  { magicStart0 := 0, magicStart1 := 0, flags := 0, targetAddr := 0, payloadSize := 0,
    blockNo := 0, numBlocks := 0, fileSize := 0, data := fun _ => 0, magicEnd := 0 }

/-- Concrete machine state in `WritingUpgrade` reading a UF2 file, used by
the C2 witness. -/
def stU : MachineState :=
  { st0 with state := .WritingUpgrade, isUf2File := true, firmwareFileSize := 1024 }

/-- Concrete environment whose file reads return the bad-magic record, used
by the C2 witness. -/
def envU : Env :=
  { env0 with fileRecordAt := fun _ => .ok uf2RecBad }

/-- Concrete machine state waiting on a pending host-link transfer with
nothing written yet (cursor at the region start), used for claim C4. -/
def stC4 : MachineState :=
  { st0 with state := .WritingUpgrade, transferPending := true, transferStartTime := 0 }

/-- Concrete environment where the pending transfer never completed and
1000 ms have elapsed (past the 500 ms `TransferTimeout`), used for
claim C4. -/
def envC4 : Env :=
  { env0 with millisNow := 1000, spiComplete := false }

/-! ## Theorems -/

/-- Claim C1: in the `WritingUpgrade` state, every flash page write is
immediately followed by a byte-exact comparison of the flash contents
against the source buffer; for every successful write whose verification
passes, the flash cursor advances by exactly one page, the block's write
offset advances by one page and the retry counter is cleared; for every
write failure or verification mismatch the cursor and write offset are
unchanged and the retry counter is incremented (the verify mismatch has
exactly the same effect as a hardware write failure). -/
theorem writing_page_write_verify (cfg : Config) (variant : Variant) (s : MachineState)
    (env : Env) (hs : s.state = .WritingUpgrade) (hbuf : s.haveDataInBuffer = true)
    (hr : s.retry ≤ cfg.maxRetries) :
    ((env.writeOk &&
        memcmpEq s.readData s.bytesWritten env.flashAfterOp s.flashPos cfg.pageSize) = true →
      (writeBinary cfg variant s env).st.flashPos = s.flashPos + cfg.pageSize ∧
      (writeBinary cfg variant s env).st.bytesWritten = s.bytesWritten + cfg.pageSize ∧
      (writeBinary cfg variant s env).st.retry = 0) ∧
    ((env.writeOk &&
        memcmpEq s.readData s.bytesWritten env.flashAfterOp s.flashPos cfg.pageSize) = false →
      (writeBinary cfg variant s env).outcome = .running ∧
      (writeBinary cfg variant s env).st.flashPos = s.flashPos ∧
      (writeBinary cfg variant s env).st.bytesWritten = s.bytesWritten ∧
      (writeBinary cfg variant s env).st.retry = s.retry + 1 ∧
      (writeBinary cfg variant s env).st.state = .WritingUpgrade ∧
      (writeBinary cfg variant s env).st.haveDataInBuffer = true) := by
  have hmax : ¬ s.retry > cfg.maxRetries := by omega
  constructor
  · intro hok
    rw [Bool.and_eq_true] at hok
    simp only [writeBinary, if_neg hmax, hs, stepWriting, writeAcquire, hbuf, if_true,
      hok.1, hok.2]
    cases variant <;> (split <;> (try split) <;> simp)
  · intro hfail
    rw [Bool.and_eq_false_iff] at hfail
    simp only [writeBinary, if_neg hmax, hs, stepWriting, writeAcquire, hbuf, if_true]
    rcases hfail with hfail | hfail
    · simp [hfail, hs]
    · cases henv : env.writeOk <;> simp [henv, hfail, hs]

/-- Witness for the C1 theorem: with a buffered all-0xFF block at the start
of the region and a successful write that reads back equal, the cursor
advances from 1000 to 1004 (one 4-byte page) and the retry counter is
cleared. -/
theorem writing_page_write_verify_witness :
    (writeBinary cfg0 .file
      { st0 with state := .WritingUpgrade, haveDataInBuffer := true,
                 readData := fun _ => 0xFF, firmwareFileSize := 8 } env0).st.flashPos = 1004 ∧
    (writeBinary cfg0 .file
      { st0 with state := .WritingUpgrade, haveDataInBuffer := true,
                 readData := fun _ => 0xFF, firmwareFileSize := 8 } env0).st.retry = 0 := by
  have h := writing_page_write_verify cfg0 .file
    { st0 with state := .WritingUpgrade, haveDataInBuffer := true,
               readData := fun _ => 0xFF, firmwareFileSize := 8 } env0 rfl rfl
    (by decide)
  have h2 := h.1 (by decide)
  exact ⟨h2.1.trans (by decide), h2.2.2⟩

/-- Claim C6: in the `ErasingFlash` state, a sector whose full range
already reads as the erased value is not erased by the hardware primitive;
after either the skip or the erase the sector is re-checked, and only if it
then reads fully erased does the cursor advance by the sector size with the
retry counter cleared; otherwise the retry counter is incremented and the
state is unchanged. (The hypothesis keeps the advanced cursor inside the
region, which is where the sector-advance behaviour is observable; at the
region end the cursor additionally wraps to the start.) -/
theorem erasing_idempotent_skip (cfg : Config) (variant : Variant) (s : MachineState)
    (env : Env) (hs : s.state = .ErasingFlash) (hr : s.retry ≤ cfg.maxRetries)
    (hmid : s.flashPos + sectorSizeAt cfg s.flashPos < cfg.firmwareFlashEnd) :
    (IsSectorErased env.flash s.flashPos (sectorSizeAt cfg s.flashPos) = true →
      (writeBinary cfg variant s env).eraseInvoked = false ∧
      (writeBinary cfg variant s env).st.flashPos
        = s.flashPos + sectorSizeAt cfg s.flashPos ∧
      (writeBinary cfg variant s env).st.retry = 0) ∧
    (IsSectorErased env.flash s.flashPos (sectorSizeAt cfg s.flashPos) = false →
      (writeBinary cfg variant s env).eraseInvoked = true ∧
      (env.eraseOk = true →
        IsSectorErased env.flashAfterOp s.flashPos (sectorSizeAt cfg s.flashPos) = true →
        (writeBinary cfg variant s env).st.flashPos
          = s.flashPos + sectorSizeAt cfg s.flashPos ∧
        (writeBinary cfg variant s env).st.retry = 0) ∧
      ((env.eraseOk = false ∨
          IsSectorErased env.flashAfterOp s.flashPos (sectorSizeAt cfg s.flashPos) = false) →
        (writeBinary cfg variant s env).outcome = .running ∧
        (writeBinary cfg variant s env).st.flashPos = s.flashPos ∧
        (writeBinary cfg variant s env).st.retry = s.retry + 1 ∧
        (writeBinary cfg variant s env).st.state = .ErasingFlash)) := by
  have hmax : ¬ s.retry > cfg.maxRetries := by omega
  have hlt : ¬ s.flashPos + sectorSizeAt cfg s.flashPos ≥ cfg.firmwareFlashEnd := by
    omega
  have hposlt : ¬ s.flashPos ≥ cfg.firmwareFlashEnd := by
    have : 0 < sectorSizeAt cfg s.flashPos := by
      unfold sectorSizeAt
      split <;> [norm_num; split <;> norm_num]
    omega
  constructor
  · intro h1
    simp [writeBinary, if_neg hmax, hs, stepErasing, h1, hlt]
  · intro h1
    refine ⟨by simp [writeBinary, if_neg hmax, hs, stepErasing, h1], ?_, ?_⟩
    · intro h2 h3
      simp [writeBinary, if_neg hmax, hs, stepErasing, h1, h2, h3, hlt]
    · intro h23
      rcases h23 with h2 | h3
      · simp [writeBinary, if_neg hmax, hs, stepErasing, h1, h2, hposlt, hs]
      · cases h2 : env.eraseOk
        · simp [writeBinary, if_neg hmax, hs, stepErasing, h1, h2, hposlt, hs]
        · simp [writeBinary, if_neg hmax, hs, stepErasing, h1, h2, h3, hposlt, hs]

set_option maxRecDepth 100000 in
/-- Witness for the C6 theorem: with an already-erased 8K sector at cursor
1000 inside a large region, the hardware erase primitive is not invoked and
the cursor advances by the sector size to 9192 with the retry counter
cleared. -/
theorem erasing_idempotent_skip_witness :
    (writeBinary cfgE .file { st0 with state := .ErasingFlash } env0).eraseInvoked = false ∧
    (writeBinary cfgE .file { st0 with state := .ErasingFlash } env0).st.flashPos = 9192 := by
  have h := erasing_idempotent_skip cfgE .file { st0 with state := .ErasingFlash } env0
    rfl (by decide) (by decide)
  have h2 := h.1 (by decide)
  exact ⟨h2.1, h2.2.1.trans (by decide)⟩

/-- Claim C5: in the host-link variant, when the locally computed CRC16
over the written flash range differs from the host-reported value, the
device stages the acknowledgement byte 0xFF (0x0C on match) and enters
`SendingChecksumError` with the retry counter cleared; once that exchange
completes, the flash cursor is reset to the region start, the retry counter
is cleared and the state returns to `WritingUpgrade` (so the image is
rewritten before any lock attempt); a timeout in `SendingChecksumError`
aborts fatally. -/
theorem checksum_error_rewrite (cfg : Config) (s : MachineState) (env : Env)
    (hr : s.retry ≤ cfg.maxRetries) :
    (s.state = .VerifyingChecksum →
      ¬ env.millisNow - s.transferStartTime > cfg.transferTimeout →
      env.spiComplete = true →
      (env.spiRequest.crc16
          = CRC16 (flashBytes env.flash cfg.firmwareFlashStart env.spiRequest.firmwareLength) →
        (writeBinary cfg .spi s env).st.writeAck = 0x0C ∧
        (writeBinary cfg .spi s env).st.state = .SendingChecksumOK ∧
        (writeBinary cfg .spi s env).st.retry = 0) ∧
      (env.spiRequest.crc16
          ≠ CRC16 (flashBytes env.flash cfg.firmwareFlashStart env.spiRequest.firmwareLength) →
        (writeBinary cfg .spi s env).st.writeAck = 0xFF ∧
        (writeBinary cfg .spi s env).st.state = .SendingChecksumError ∧
        (writeBinary cfg .spi s env).st.retry = 0)) ∧
    (s.state = .SendingChecksumError →
      (env.millisNow - s.transferStartTime > cfg.transferTimeout →
        (writeBinary cfg .spi s env).outcome = .fatalReset) ∧
      (¬ env.millisNow - s.transferStartTime > cfg.transferTimeout →
        env.spiComplete = true →
        (writeBinary cfg .spi s env).outcome = .running ∧
        (writeBinary cfg .spi s env).st.flashPos = cfg.firmwareFlashStart ∧
        (writeBinary cfg .spi s env).st.retry = 0 ∧
        (writeBinary cfg .spi s env).st.state = .WritingUpgrade)) := by
  have hmax : ¬ s.retry > cfg.maxRetries := by omega
  constructor
  · intro hs hnt hc
    constructor
    · intro heq
      simp [writeBinary, if_neg hmax, hs, stepVerifying, hnt, hc, heq]
    · intro hne
      simp [writeBinary, if_neg hmax, hs, stepVerifying, hnt, hc, hne]
  · intro hs
    constructor
    · intro ht
      simp [writeBinary, if_neg hmax, hs, stepSendingError, ht]
    · intro hnt hc
      simp [writeBinary, if_neg hmax, hs, stepSendingError, hnt, hc]

/-- Witness for the C5 theorem: a completed checksum-error exchange in
`SendingChecksumError` resets the cursor to 1000, clears the retry counter
and returns the machine to `WritingUpgrade`. -/
theorem checksum_error_rewrite_witness :
    (writeBinary cfg0 .spi
      { st0 with state := .SendingChecksumError, flashPos := 1008, retry := 0,
                 transferPending := true, transferStartTime := 0 }
      { env0 with spiComplete := true }).st.flashPos = 1000 ∧
    (writeBinary cfg0 .spi
      { st0 with state := .SendingChecksumError, flashPos := 1008, retry := 0,
                 transferPending := true, transferStartTime := 0 }
      { env0 with spiComplete := true }).st.state = .WritingUpgrade := by
  have h := checksum_error_rewrite cfg0
    { st0 with state := .SendingChecksumError, flashPos := 1008, retry := 0,
               transferPending := true, transferStartTime := 0 }
    { env0 with spiComplete := true } (by decide)
  have h2 := (h.2 rfl).2 (by decide) rfl
  exact ⟨h2.2.1.trans (by decide), h2.2.2.2⟩

/-- Claim C2: the UF2 block reader seeks to `2 * (cursor - regionStart)`;
inside the decoding loop, a record whose start or end magics differ from
the fixed constants, or whose target address differs from the expected next
flash address (cursor plus accumulated offset within the output block), or
whose payload size differs from 256, causes an immediate fatal abort
carrying the offending file offset, and feeding such a result into
`writeBinary` resets fatally without touching the retry counter; a
transient seek or read failure instead increments the shared retry counter
and leaves the state and cursor unchanged so the same read is
re-attempted. -/
theorem uf2_fatal_vs_transient (cfg : Config) (s : MachineState) (env : Env)
    (hs : s.state = .WritingUpgrade) (hb : s.haveDataInBuffer = false)
    (hu : s.isUf2File = true) (hr : s.retry ≤ cfg.maxRetries) :
    uf2SeekPos cfg s.flashPos = 2 * (s.flashPos - cfg.firmwareFlashStart) ∧
    (∀ bytesRead buf rec,
      uf2SeekPos cfg s.flashPos + bytesRead * 2 ≠ s.firmwareFileSize →
      env.fileRecordAt (bytesRead / 256) = .ok rec →
      ((rec.magicStart0 ≠ MagicStart0Val ∨ rec.magicStart1 ≠ MagicStart1Val ∨
          rec.magicEnd ≠ MagicEndVal) →
        readBlockUf2Go cfg s.firmwareFileSize s.flashPos (uf2SeekPos cfg s.flashPos)
            env.fileRecordAt bytesRead buf
          = .fatalBadMagic (uf2SeekPos cfg s.flashPos + bytesRead)) ∧
      ((rec.magicStart0 = MagicStart0Val ∧ rec.magicStart1 = MagicStart1Val ∧
          rec.magicEnd = MagicEndVal) →
        (rec.targetAddr ≠ s.flashPos + bytesRead ∨ rec.payloadSize ≠ 256) →
        readBlockUf2Go cfg s.firmwareFileSize s.flashPos (uf2SeekPos cfg s.flashPos)
            env.fileRecordAt bytesRead buf
          = .fatalBadData (uf2SeekPos cfg s.flashPos + bytesRead))) ∧
    (∀ bytesRead buf,
      uf2SeekPos cfg s.flashPos + bytesRead * 2 ≠ s.firmwareFileSize →
      (env.fileRecordAt (bytesRead / 256) = .ioErr ∨
        env.fileRecordAt (bytesRead / 256) = .short) →
      readBlockUf2Go cfg s.firmwareFileSize s.flashPos (uf2SeekPos cfg s.flashPos)
          env.fileRecordAt bytesRead buf
        = .transientFail) ∧
    (env.fileSeekOk = false →
      ReadBlockFile cfg s env = .transientFail) ∧
    (∀ off, (ReadBlockFile cfg s env = .fatalBadMagic off ∨
        ReadBlockFile cfg s env = .fatalBadData off) →
      (writeBinary cfg .file s env).outcome = .fatalReset ∧
      (writeBinary cfg .file s env).st.retry = s.retry ∧
      (writeBinary cfg .file s env).st.flashPos = s.flashPos) ∧
    (ReadBlockFile cfg s env = .transientFail →
      (writeBinary cfg .file s env).outcome = .running ∧
      (writeBinary cfg .file s env).st.retry = s.retry + 1 ∧
      (writeBinary cfg .file s env).st.state = .WritingUpgrade ∧
      (writeBinary cfg .file s env).st.flashPos = s.flashPos) := by
  have hmax : ¬ s.retry > cfg.maxRetries := by omega
  refine ⟨by rw [uf2SeekPos, Nat.mul_comm], ?_, ?_, ?_, ?_, ?_⟩
  · intro bytesRead buf rec hneof hrec
    constructor
    · intro hbad
      rw [readBlockUf2Go, if_neg hneof, hrec]
      simp only []
      rw [if_pos hbad]
    · intro hgood hbad
      rw [readBlockUf2Go, if_neg hneof, hrec]
      simp only []
      rw [if_neg (by push_neg; exact hgood), if_pos hbad]
  · intro bytesRead buf hneof hfail
    rcases hfail with hfail | hfail <;>
      (rw [readBlockUf2Go, if_neg hneof, hfail])
  · intro hseek
    rw [ReadBlockFile, if_pos hu, ReadBlockUf2, hseek]
    simp
  · intro off hfat
    have hstep : (writeBinary cfg .file s env) = ⟨.fatalReset, s, false⟩ := by
      simp only [writeBinary, if_neg hmax, hs, stepWriting, writeAcquire, hb]
      rcases hfat with hfat | hfat <;> simp [hfat]
    rw [hstep]
    exact ⟨rfl, rfl, rfl⟩
  · intro htr
    have hstep : (writeBinary cfg .file s env)
        = ⟨.running, { s with retry := s.retry + 1 }, false⟩ := by
      simp only [writeBinary, if_neg hmax, hs, stepWriting, writeAcquire, hb]
      simp [htr]
    rw [hstep]
    exact ⟨rfl, rfl, hs, rfl⟩

/-- Witness for the C2 theorem: decoding a record with zeroed magics at the
start of the file aborts fatally with offset 0, and feeding that fatal
result into `writeBinary` resets without incrementing the retry counter. -/
theorem uf2_fatal_vs_transient_witness :
    readBlockUf2Go cfg0 1024 1000 (uf2SeekPos cfg0 1000) (fun _ => .ok uf2RecBad) 0
        (fun _ => 0) = .fatalBadMagic 0 ∧
    (writeBinary cfg0 .file stU envU).outcome = .fatalReset ∧
    (writeBinary cfg0 .file stU envU).st.retry = 0 := by
  have h := uf2_fatal_vs_transient cfg0 stU envU rfl rfl rfl (by decide)
  have hgo := (h.2.1 0 (fun _ => 0) uf2RecBad (by decide) rfl).1 (by decide)
  have hfat : ReadBlockFile cfg0 stU envU = .fatalBadMagic 0 := by
    have heq : ReadBlockFile cfg0 stU envU
        = readBlockUf2Go cfg0 stU.firmwareFileSize stU.flashPos
            (uf2SeekPos cfg0 stU.flashPos) envU.fileRecordAt 0 (fun _ => 0) := rfl
    rw [heq, hgo]
    rfl
  have hw := h.2.2.2.2.1 0 (Or.inl hfat)
  exact ⟨hgo.trans rfl, hw.1, hw.2.1.trans rfl⟩

/-- Counterexample to claim C4 as stated: a host-link transfer timeout that
occurs before any data has been written to flash (the cursor still equals
the region start) is not a recoverable failure — `writeBinary` aborts
fatally and the retry counter is left untouched rather than incremented. -/
theorem spi_timeout_policy_counterexample :
    stC4.flashPos = cfg0.firmwareFlashStart ∧
    envC4.millisNow - stC4.transferStartTime > cfg0.transferTimeout ∧
    (writeBinary cfg0 .spi stC4 envC4).outcome = .fatalReset ∧
    (writeBinary cfg0 .spi stC4 envC4).st.retry = stC4.retry := by
  exact ⟨rfl, by decide, rfl, rfl⟩

/-- Claim C4 amended: in the host-link block source, with a transfer
pending and not complete, (a) once at least one block has been written
(cursor moved past the region start) and more than `TransferCompleteDelay`
has elapsed, the quiet link is treated as end-of-image and an all-0xFF
block with `bytesRead = 0` is synthesized (no failure of any kind);
(b) otherwise an elapsed time beyond `TransferTimeout` is a fatal,
non-retryable abort that leaves the retry counter untouched — in
particular every timeout before any data has been written is fatal, not
recoverable; (c) below both bounds the source keeps waiting with retry
counter, state and cursor unchanged. -/
theorem spi_timeout_policy (cfg : Config) (s : MachineState) (env : Env)
    (hs : s.state = .WritingUpgrade) (hb : s.haveDataInBuffer = false)
    (hp : s.transferPending = true) (hc : env.spiComplete = false)
    (hr : s.retry ≤ cfg.maxRetries) :
    (s.flashPos ≠ cfg.firmwareFlashStart →
      env.millisNow - s.transferStartTime > cfg.transferCompleteDelay →
      writeAcquire cfg .spi s env
        = .ready { s with haveDataInBuffer := true, retry := 0, bytesWritten := 0,
                          bytesRead := 0, readData := fun _ => 0xFF }) ∧
    (¬ (s.flashPos ≠ cfg.firmwareFlashStart ∧
        env.millisNow - s.transferStartTime > cfg.transferCompleteDelay) →
      env.millisNow - s.transferStartTime > cfg.transferTimeout →
      (writeBinary cfg .spi s env).outcome = .fatalReset ∧
      (writeBinary cfg .spi s env).st.retry = s.retry ∧
      (writeBinary cfg .spi s env).st.flashPos = s.flashPos) ∧
    (¬ (s.flashPos ≠ cfg.firmwareFlashStart ∧
        env.millisNow - s.transferStartTime > cfg.transferCompleteDelay) →
      ¬ env.millisNow - s.transferStartTime > cfg.transferTimeout →
      (writeBinary cfg .spi s env).outcome = .running ∧
      (writeBinary cfg .spi s env).st.retry = s.retry ∧
      (writeBinary cfg .spi s env).st.state = .WritingUpgrade ∧
      (writeBinary cfg .spi s env).st.flashPos = s.flashPos) := by
  have hmax : ¬ s.retry > cfg.maxRetries := by omega
  refine ⟨?_, ?_, ?_⟩
  · intro h1 h2
    simp [writeAcquire, hb, hp, hc, h1, h2]
  · intro hn ht
    simp [writeBinary, if_neg hmax, hs, stepWriting, writeAcquire, hb, hp, hc, hn, ht]
  · intro hn hnt
    simp [writeBinary, if_neg hmax, hs, stepWriting, writeAcquire, hb, hp, hc, hn, hnt,
      hs]

/-- Witness for the amended C4 theorem: with the cursor still at the region
start and only 100 ms elapsed (below both bounds), the step keeps waiting
and the retry counter stays at zero. -/
theorem spi_timeout_policy_witness :
    (writeBinary cfg0 .spi stC4 { envC4 with millisNow := 100 }).outcome = .running ∧
    (writeBinary cfg0 .spi stC4 { envC4 with millisNow := 100 }).st.retry = 0 := by
  have h := spi_timeout_policy cfg0 stC4 { envC4 with millisNow := 100 }
    rfl rfl rfl rfl (by decide)
  have h3 := h.2.2 (by decide) (by decide)
  exact ⟨h3.1, h3.2.1.trans rfl⟩

/-- Counterexample to claim C9 as stated: a fatal failure in the
`ErasingFlash` state (before `WritingUpgrade` is reached) does not persist
the diagnostic message into flash, and does not switch the boot target to
recovery either — `Reset` only does so from `WritingUpgrade` onwards. -/
theorem reset_persistence_counterexample :
    (ResetModel false .ErasingFlash).persistedMessage = false ∧
    (ResetModel false .ErasingFlash).clearedBootFlag = false := by
  decide

/-- Claim C9 amended: the failure path of `Reset` persists the last
diagnostic message into the start of the flash region — and switches the
boot target to the recovery bootloader — exactly when the machine state has
reached `WritingUpgrade` (in enum order); fatal failures in earlier states,
and every success-path reset, persist nothing; and for every fatal reset
produced by `writeBinary` the persistence decision is therefore
`stateGe state WritingUpgrade` at the recorded state. -/
theorem reset_persistence (success : Bool) (st : ProcessState) (cfg : Config)
    (variant : Variant) (s : MachineState) (env : Env) :
    (ResetModel success st).persistedMessage
        = (!success && stateGe st .WritingUpgrade) ∧
    (ResetModel success st).clearedBootFlag
        = (!success && stateGe st .WritingUpgrade) ∧
    ((writeBinary cfg variant s env).outcome = .fatalReset →
      (ResetModel false (writeBinary cfg variant s env).st.state).persistedMessage
        = stateGe (writeBinary cfg variant s env).st.state .WritingUpgrade) := by
  refine ⟨?_, ?_, ?_⟩
  · cases success <;> cases st <;> decide
  · cases success <;> cases st <;> decide
  · intro _
    unfold ResetModel
    cases hst : stateGe (writeBinary cfg variant s env).st.state .WritingUpgrade <;>
      simp [hst]

/-- Witness for the amended C9 theorem: a fatal failure in
`VerifyingChecksum` does persist the message, and the concrete fatal
timeout reset of the host-link source carries the `WritingUpgrade` state,
for which the persistence decision evaluates to `true`. -/
theorem reset_persistence_witness :
    (ResetModel false .VerifyingChecksum).persistedMessage = true ∧
    (ResetModel false (writeBinary cfg0 .spi stC4 envC4).st.state).persistedMessage
      = true := by
  have h := reset_persistence false .VerifyingChecksum cfg0 .spi stC4 envC4
  refine ⟨h.1.trans (by decide), ?_⟩
  have h3 := h.2.2 (by decide)
  exact h3.trans (by decide)

/-- Claim C10: progress reporting divides by the total image size with no
guard against zero: `openBinary` enforces only an upper bound, so a
zero-byte firmware file passes its size check; a zero file size makes the
file-variant `totalSize` zero; and `ShowProgress` (in a semantics where
division by zero is undefined) is well-defined exactly when the divisor is
nonzero. -/
theorem progress_divide_by_zero (cfg : Config) (s : MachineState) (isUf2 : Bool) :
    openBinarySizeCheckOk cfg isUf2 0 = true ∧
    (s.firmwareFileSize = 0 → totalSizeOf cfg .file s = 0) ∧
    (∀ totalSize flashPos reportNext,
      (ShowProgressChecked cfg totalSize flashPos reportNext).isSome ↔ totalSize ≠ 0) := by
  refine ⟨?_, ?_, ?_⟩
  · simp [openBinarySizeCheckOk]
  · intro h
    cases hu : s.isUf2File <;> simp [totalSizeOf, hu, h]
  · intro totalSize flashPos reportNext
    unfold ShowProgressChecked
    split <;> simp_all

/-- Witness for the C10 theorem: the concrete zero-byte file passes the
size check, gives a zero divisor, and makes `ShowProgress` undefined. -/
theorem progress_divide_by_zero_witness :
    openBinarySizeCheckOk cfg0 false 0 = true ∧
    totalSizeOf cfg0 .file st0 = 0 ∧
    (ShowProgressChecked cfg0 0 1000 20).isSome = false := by
  have h := progress_divide_by_zero cfg0 st0 false
  refine ⟨h.1, h.2.1 rfl, ?_⟩
  have h00 := h.2.2 0 1000 20
  rw [Bool.eq_false_iff]
  intro hT
  exact (h00.mp hT) rfl

/-- The `ShowProgress` emission rule in closed form. -/
theorem ShowProgress_eq (cfg : Config) (t p rN : Nat) :
    ShowProgress cfg t p rN =
      if rN ≤ 100 * (p - cfg.firmwareFlashStart) / t
      then (some (100 * (p - cfg.firmwareFlashStart) / t), rN + 20)
      else (none, rN) := rfl

/-- Unfolding of `progressTrace` over one call. -/
theorem progressTrace_cons (cfg : Config) (t rN p : Nat) (ps : List Nat) :
    progressTrace cfg t rN (p :: ps) =
      if rN ≤ 100 * (p - cfg.firmwareFlashStart) / t
      then (rN, 100 * (p - cfg.firmwareFlashStart) / t)
        :: progressTrace cfg t (rN + 20) ps
      else progressTrace cfg t rN ps := by
  simp only [progressTrace, ShowProgress_eq]
  by_cases h : rN ≤ 100 * (p - cfg.firmwareFlashStart) / t <;> simp [h]

/-- Every threshold recorded in a progress trace is at least the threshold
in force when the trace started. -/
theorem progressTrace_fst_ge (cfg : Config) (t : Nat) (ps : List Nat) :
    ∀ rN x, x ∈ progressTrace cfg t rN ps → rN ≤ x.1 := by
  induction ps with
  | nil => intro rN x hx; simp [progressTrace] at hx
  | cons p ps ih =>
    intro rN x hx
    rw [progressTrace_cons] at hx
    by_cases h : rN ≤ 100 * (p - cfg.firmwareFlashStart) / t
    · rw [if_pos h] at hx
      rcases List.mem_cons.1 hx with rfl | hx
      · exact le_refl _
      · have := ih (rN + 20) x hx
        omega
    · rw [if_neg h] at hx
      exact ih rN x hx

/-- The thresholds at which progress messages fire strictly increase along
a run, so no threshold ever fires twice. -/
theorem progressTrace_fst_chain (cfg : Config) (t : Nat) (ps : List Nat) :
    ∀ rN, List.Chain' (· < ·) ((progressTrace cfg t rN ps).map Prod.fst) := by
  induction ps with
  | nil => intro rN; simp [progressTrace]
  | cons p ps ih =>
    intro rN
    rw [progressTrace_cons]
    by_cases h : rN ≤ 100 * (p - cfg.firmwareFlashStart) / t
    · rw [if_pos h, List.map_cons, List.chain'_cons']
      refine ⟨?_, ih (rN + 20)⟩
      intro y hy
      rcases List.mem_map.1 (List.mem_of_mem_head? hy) with ⟨x, hx, rfl⟩
      have := progressTrace_fst_ge cfg t ps (rN + 20) x hx
      show rN < x.1
      omega
    · rw [if_neg h]
      exact ih rN


/-- The emitted percentages form a sublist of the percentages computed at
each call. -/
theorem progressTrace_snd_sublist (cfg : Config) (t : Nat) (ps : List Nat) :
    ∀ rN, ((progressTrace cfg t rN ps).map Prod.snd).Sublist
      (ps.map fun p => 100 * (p - cfg.firmwareFlashStart) / t) := by
  induction ps with
  | nil => intro rN; simp [progressTrace]
  | cons p ps ih =>
    intro rN
    rw [progressTrace_cons]
    by_cases h : rN ≤ 100 * (p - cfg.firmwareFlashStart) / t
    · rw [if_pos h, List.map_cons, List.map_cons]
      exact List.Sublist.cons₂ _ (ih (rN + 20))
    · rw [if_neg h, List.map_cons]
      exact List.Sublist.cons _ (ih rN)

/-- Claim C8: progress is computed as
`100 * (cursor - start) / totalImageSize` and a message is emitted exactly
when that percentage has reached the currently armed threshold, which then
advances by 20; over any run the thresholds at which messages fire strictly
increase (no threshold's message is ever emitted twice), and whenever the
cursor sequence over the calls is non-decreasing (as it is across a write
pass, for any image size) the reported percentages are non-decreasing. -/
theorem progress_reporting (cfg : Config) (t rN : Nat) (ps : List Nat) (p0 rN0 : Nat) :
    (ShowProgress cfg t p0 rN0 =
      if rN0 ≤ 100 * (p0 - cfg.firmwareFlashStart) / t
      then (some (100 * (p0 - cfg.firmwareFlashStart) / t), rN0 + reportPercentIncrement)
      else (none, rN0)) ∧
    List.Chain' (· < ·) ((progressTrace cfg t rN ps).map Prod.fst) ∧
    (List.Chain' (· ≤ ·) ps →
      List.Chain' (· ≤ ·) ((progressTrace cfg t rN ps).map Prod.snd)) := by
  refine ⟨rfl, progressTrace_fst_chain cfg t ps rN, ?_⟩
  intro hmono
  have hchainf :
      List.Chain' (· ≤ ·) (ps.map fun p => 100 * (p - cfg.firmwareFlashStart) / t) := by
    rw [List.chain'_map]
    exact hmono.imp fun a b hab => Nat.div_le_div_right (by omega)
  exact hchainf.sublist (progressTrace_snd_sublist cfg t ps rN)

/-- Witness for the C8 theorem: two successive page writes over an 8-byte
image report 50 percent then 100 percent — a non-decreasing report
sequence produced at the strictly increasing thresholds 20 and 40. -/
theorem progress_reporting_witness :
    (progressTrace cfg0 8 20 [1004, 1008]).map Prod.snd = [50, 100] ∧
    List.Chain' (· ≤ ·) ((progressTrace cfg0 8 20 [1004, 1008]).map Prod.snd) := by
  have h := progress_reporting cfg0 8 20 [1004, 1008] 1004 20
  exact ⟨by decide, h.2.2 (by simp [List.chain'_cons])⟩

/-- Right shifts distribute over xor. -/
theorem shiftRight_xor (a b n : Nat) : (a ^^^ b) >>> n = a >>> n ^^^ b >>> n := by
  apply Nat.eq_of_testBit_eq
  intro i
  simp [Nat.testBit_shiftRight, Nat.testBit_xor]

/-- Cancelling a common xor operand on both sides. -/
theorem xor_xor_cancel (x y c : Nat) : (x ^^^ c) ^^^ (y ^^^ c) = x ^^^ y := by
  rw [Nat.xor_assoc, Nat.xor_comm y c, ← Nat.xor_assoc c c y, Nat.xor_self,
    Nat.zero_xor]

/-- Moving the right xor operand past a constant. -/
theorem xor_swap_right (x y c : Nat) : (x ^^^ y) ^^^ c = (x ^^^ c) ^^^ y := by
  rw [Nat.xor_assoc, Nat.xor_comm y c, ← Nat.xor_assoc]

/-- The reference CRC bit step is linear over xor. -/
theorem crcBitStep_xor (a b : Nat) :
    crcBitStep (a ^^^ b) = crcBitStep a ^^^ crcBitStep b := by
  have hpar : (a ^^^ b) % 2 = (a + b) % 2 := Nat.xor_mod_two_eq
  unfold crcBitStep
  by_cases ha : a % 2 = 1 <;> by_cases hb : b % 2 = 1
  · rw [if_neg (by omega), if_pos ha, if_pos hb, shiftRight_xor, xor_xor_cancel]
  · rw [if_pos (by omega), if_pos ha, if_neg hb, shiftRight_xor, xor_swap_right]
  · rw [if_pos (by omega), if_neg ha, if_pos hb, shiftRight_xor, Nat.xor_assoc]
  · rw [if_neg (by omega), if_neg ha, if_neg hb, shiftRight_xor]

/-- Iterates of the reference CRC bit step are linear over xor. -/
theorem crcBitStep_iterate_xor (n a b : Nat) :
    crcBitStep^[n] (a ^^^ b) = crcBitStep^[n] a ^^^ crcBitStep^[n] b := by
  induction n generalizing a b with
  | zero => rfl
  | succ n ih =>
    rw [Function.iterate_succ_apply, Function.iterate_succ_apply,
      Function.iterate_succ_apply, crcBitStep_xor, ih]

/-- Iterating the reference CRC bit step `k` times over `x <<< k` shifts
`x` back down unchanged: all the shifted-out bits are zero, so the
polynomial is never xor-ed in. -/
theorem crcBitStep_iterate_shiftLeft (k x : Nat) :
    crcBitStep^[k] (x <<< k) = x := by
  induction k with
  | zero => simp
  | succ k ih =>
    have h2 : x <<< (k + 1) = 2 * (x <<< k) := by
      rw [Nat.shiftLeft_eq, Nat.shiftLeft_eq, pow_succ]
      ring
    have hstep : crcBitStep (x <<< (k + 1)) = x <<< k := by
      unfold crcBitStep
      rw [if_neg (by omega), Nat.shiftRight_eq_div_pow, pow_one]
      omega
    rw [Function.iterate_succ_apply, hstep, ih]

/-- Splitting a value into its high part and its low byte with xor. -/
theorem high_low_xor (c : Nat) : ((c >>> 8) <<< 8) ^^^ (c &&& 255) = c := by
  have h255b : ∀ j, Nat.testBit 255 j = decide (j < 8) := by
    intro j
    rw [(by norm_num : (255 : Nat) = 2 ^ 8 - 1), Nat.testBit_two_pow_sub_one]
  apply Nat.eq_of_testBit_eq
  intro i
  by_cases hi : 8 ≤ i
  · have hsum : 8 + (i - 8) = i := by omega
    have hnl : ¬ i < 8 := by omega
    simp [Nat.testBit_xor, Nat.testBit_shiftLeft, Nat.testBit_shiftRight,
      Nat.testBit_and, h255b, hi, hsum, hnl]
  · have hlt : i < 8 := by omega
    simp [Nat.testBit_xor, Nat.testBit_shiftLeft, Nat.testBit_shiftRight,
      Nat.testBit_and, h255b, hi, hlt]

set_option maxRecDepth 4000 in
/-- The source's 256-entry table agrees with eight iterations of the
reference reflected bit step on every byte index. -/
theorem crc16_table_eq : ∀ x < 256, crc16_table.getD x 0 = crcBitStep^[8] x := by
  decide

/-- One byte step of the source's table-driven `CRC16` equals one byte step
of the reference reflected CRC-16 algorithm. -/
theorem crc16Step_eq (crc b : Nat) (hb : b < 256) :
    crc16Step crc b = crcByteStep crc b := by
  unfold crc16Step crcByteStep
  have hlow : (crc ^^^ b) &&& 0xFF < 256 := by
    have : (0xFF : Nat) = 2 ^ 8 - 1 := by norm_num
    rw [this, Nat.and_pow_two_sub_one_eq_mod]
    exact Nat.mod_lt _ (by norm_num)
  have hhigh : (crc ^^^ b) >>> 8 = crc >>> 8 := by
    rw [shiftRight_xor, Nat.shiftRight_eq_div_pow b, Nat.div_eq_of_lt (by omega),
      Nat.xor_zero]
  calc (crc >>> 8) ^^^ crc16_table.getD ((crc ^^^ b) &&& 0xFF) 0
      = ((crc ^^^ b) >>> 8) ^^^ crcBitStep^[8] ((crc ^^^ b) &&& 0xFF) := by
        rw [hhigh, crc16_table_eq _ hlow]
    _ = crcBitStep^[8] (((crc ^^^ b) >>> 8) <<< 8)
          ^^^ crcBitStep^[8] ((crc ^^^ b) &&& 255) := by
        rw [crcBitStep_iterate_shiftLeft]
    _ = crcBitStep^[8] ((((crc ^^^ b) >>> 8) <<< 8) ^^^ ((crc ^^^ b) &&& 255)) := by
        rw [crcBitStep_iterate_xor]
    _ = crcBitStep^[8] (crc ^^^ b) := by rw [high_low_xor]

/-- The two CRC folds agree from any accumulator over byte-valued input. -/
theorem crc16_foldl_eq (l : List Nat) :
    ∀ crc, (∀ b ∈ l, b < 256) → l.foldl crc16Step crc = l.foldl crcByteStep crc := by
  induction l with
  | nil => intro crc _; rfl
  | cons b l ih =>
    intro crc hl
    rw [List.foldl_cons, List.foldl_cons, crc16Step_eq crc b (hl b (by simp))]
    exact ih _ fun x hx => hl x (by simp [hx])

/-- Counterexample to claim C7 as stated: the source's `CRC16` of the
single byte `A` (0x41) is 0x707F, which differs from the reference
CRC-16/ARC value 0x30C0 of the same byte — the algorithm does not match
CRC-16/ARC bit-for-bit (CRC-16/ARC starts from 0x0000, the source starts
from all-ones). -/
theorem crc16_arc_counterexample :
    CRC16 [0x41] = 0x707F ∧ crc16_arc [0x41] = 0x30C0 ∧
    CRC16 [0x41] ≠ crc16_arc [0x41] := by
  refine ⟨by decide, by decide, by decide⟩

/-- Claim C7 amended: the Checksum Engine's `CRC16` is a pure function of
the buffer bytes implementing the table-driven, reflected CRC-16 algorithm
with initial value all-ones and no final XOR — the CRC-16/MODBUS
parameters, not CRC-16/ARC — equal byte-for-byte to the reference
reflected-polynomial-0xA001 algorithm started at 0xFFFF; in particular
`CRC16("", 0) = 0xFFFF`, `CRC16("A", 1) = 0x707F`, and
`CRC16("123456789", 9) = 0x4B37` (the CRC-16/MODBUS check value). -/
theorem crc16_is_modbus (l : List Nat) (hl : ∀ b ∈ l, b < 256) :
    CRC16 l = crc16_modbus l ∧
    CRC16 [] = 0xFFFF ∧
    CRC16 [0x41] = 0x707F ∧
    CRC16 [0x31, 0x32, 0x33, 0x34, 0x35, 0x36, 0x37, 0x38, 0x39] = 0x4B37 := by
  refine ⟨crc16_foldl_eq l 0xFFFF hl, by decide, by decide, by decide⟩

/-- Witness for the amended C7 theorem: on the byte string `A` the
table-driven `CRC16` and the reference MODBUS fold agree, at value
0x707F. -/
theorem crc16_is_modbus_witness :
    CRC16 [0x41] = crc16_modbus [0x41] ∧ crc16_modbus [0x41] = 0x707F := by
  have h := crc16_is_modbus [0x41] (by decide)
  exact ⟨h.1, h.1.symm.trans h.2.2.1⟩

/-- A block acquisition that hands back a state ready for the page write
either reset the retry counter (fresh block) or kept it (already
buffered), and never touches the machine state tag or the flash cursor. -/
theorem writeAcquire_ready (cfg : Config) (variant : Variant) (s : MachineState)
    (env : Env) (s1 : MachineState)
    (h : writeAcquire cfg variant s env = .ready s1) :
    (s1.retry = 0 ∨ s1.retry = s.retry) ∧ s1.state = s.state ∧
      s1.flashPos = s.flashPos ∧ s1.haveDataInBuffer = true := by
  unfold writeAcquire at h
  revert h
  repeat' split
  all_goals intro h
  all_goals
    first
      | (rw [AcquireResult.ready.injEq] at h
         subst h
         first
           | exact ⟨Or.inl rfl, rfl, rfl, rfl⟩
           | exact ⟨Or.inr rfl, rfl, rfl, by assumption⟩)
      | exact absurd h (by simp)

/-- A block acquisition that keeps waiting never touches the retry
counter, the state tag, the flash cursor or the buffered-block flag. -/
theorem writeAcquire_wait (cfg : Config) (variant : Variant) (s : MachineState)
    (env : Env) (s1 : MachineState)
    (h : writeAcquire cfg variant s env = .wait s1) :
    s1.retry = s.retry ∧ s1.state = s.state ∧ s1.flashPos = s.flashPos ∧
      s1.haveDataInBuffer = s.haveDataInBuffer := by
  unfold writeAcquire at h
  revert h
  repeat' split
  all_goals intro h
  all_goals
    first
      | (rw [AcquireResult.wait.injEq] at h
         subst h
         exact ⟨rfl, rfl, rfl, rfl⟩)
      | exact absurd h (by simp)

/-- Entering `writeBinary` with the retry counter beyond the maximum
aborts fatally before any state action runs. -/
theorem writeBinary_fatal_gate (cfg : Config) (variant : Variant) (s : MachineState)
    (env : Env) (h : cfg.maxRetries < s.retry) :
    writeBinary cfg variant s env = ⟨.fatalReset, s, false⟩ := by
  unfold writeBinary
  rw [if_pos (by omega)]

/-- Any successful step either reboots the machine or leaves the retry
counter at zero. -/
theorem writeBinary_success_resets (cfg : Config) (variant : Variant)
    (s : MachineState) (env : Env) (hr : s.retry ≤ cfg.maxRetries)
    (hInv : ackStatesRetryZero s)
    (hsucc : stepSucceeded cfg variant s env = true) :
    (writeBinary cfg variant s env).outcome = .successReset ∨
      (writeBinary cfg variant s env).st.retry = 0 := by
  have hmax : ¬ s.retry > cfg.maxRetries := by omega
  cases hst : s.state
  case Initializing =>
    simp only [stepSucceeded, hst] at hsucc
    right
    simp [writeBinary, if_neg hmax, hst, stepUnlocking, hsucc]
    split <;> simp
  case UnlockingFlash =>
    simp only [stepSucceeded, hst] at hsucc
    right
    simp [writeBinary, if_neg hmax, hst, stepUnlocking, hsucc]
    split <;> simp
  case ErasingFlash =>
    rw [stepSucceeded] at hsucc
    simp only [hst] at hsucc
    right
    by_cases hpre :
        IsSectorErased env.flash s.flashPos (sectorSizeAt cfg s.flashPos) = true
    · simp [writeBinary, if_neg hmax, hst, stepErasing, hpre]
      split <;> simp
    · rw [eraseSucceeds] at hsucc
      simp only [Bool.not_eq_true] at hpre
      rw [hpre] at hsucc
      simp at hsucc
      simp [writeBinary, if_neg hmax, hst, stepErasing, hpre, hsucc.1, hsucc.2]
      split <;> simp
  case WritingUpgrade =>
    rw [stepSucceeded] at hsucc
    simp only [hst] at hsucc
    rw [writeSucceeds] at hsucc
    right
    cases hacq : writeAcquire cfg variant s env with
    | transient => rw [hacq] at hsucc; simp at hsucc
    | fatal => rw [hacq] at hsucc; simp at hsucc
    | wait s1 => rw [hacq] at hsucc; simp at hsucc
    | ready s1 =>
      rw [hacq] at hsucc
      simp only [Bool.and_eq_true] at hsucc
      simp only [writeBinary, if_neg hmax, hst, stepWriting, hacq, hsucc.1, hsucc.2,
        if_true]
      repeat' split
      all_goals simp
  case VerifyingChecksum =>
    rw [stepSucceeded] at hsucc
    simp only [hst] at hsucc
    right
    cases variant with
    | file => simp at hsucc
    | spi =>
      have hnt : ¬ env.millisNow - s.transferStartTime > cfg.transferTimeout := by
        intro hP
        rw [spiExchangeCompletes] at hsucc
        simp [hP] at hsucc
      have hcm : env.spiComplete = true := by
        rw [spiExchangeCompletes] at hsucc
        simp at hsucc
        exact hsucc.2
      simp [writeBinary, if_neg hmax, hst, stepVerifying, hnt, hcm]
      split <;> simp
  case SendingChecksumOK =>
    rw [stepSucceeded] at hsucc
    simp only [hst] at hsucc
    right
    cases variant with
    | file =>
      simp [writeBinary, if_neg hmax, hst]
      exact hInv (Or.inl hst)
    | spi =>
      have hnt : ¬ env.millisNow - s.transferStartTime > cfg.transferTimeout := by
        intro hP
        rw [spiExchangeCompletes] at hsucc
        simp [hP] at hsucc
      have hcm : env.spiComplete = true := by
        rw [spiExchangeCompletes] at hsucc
        simp at hsucc
        exact hsucc.2
      simp [writeBinary, if_neg hmax, hst, stepSendingOK, hnt, hcm]
      exact hInv (Or.inl hst)
  case SendingChecksumError =>
    rw [stepSucceeded] at hsucc
    simp only [hst] at hsucc
    right
    cases variant with
    | file =>
      simp [writeBinary, if_neg hmax, hst]
      exact hInv (Or.inr hst)
    | spi =>
      have hnt : ¬ env.millisNow - s.transferStartTime > cfg.transferTimeout := by
        intro hP
        rw [spiExchangeCompletes] at hsucc
        simp [hP] at hsucc
      have hcm : env.spiComplete = true := by
        rw [spiExchangeCompletes] at hsucc
        simp at hsucc
        exact hsucc.2
      simp [writeBinary, if_neg hmax, hst, stepSendingError, hnt, hcm]
  case LockingFlash =>
    simp only [stepSucceeded, hst] at hsucc
    by_cases hend : s.flashPos + cfg.pageSize ≥ cfg.firmwareFlashEnd
    · left
      simp [writeBinary, if_neg hmax, hst, stepLocking, hsucc, hend]
    · right
      simp [writeBinary, if_neg hmax, hst, stepLocking, hsucc, hend]

/-- Any recoverable failure keeps the machine running, increments the
retry count of the attempted step by exactly one, and re-attempts the
identical step: the state tag (up to the one-shot `Initializing` →
`UnlockingFlash` entry transition) and the flash cursor are unchanged. -/
theorem writeBinary_fail_increments (cfg : Config) (variant : Variant)
    (s : MachineState) (env : Env) (hr : s.retry ≤ cfg.maxRetries)
    (hpos : s.state = .ErasingFlash → s.flashPos < cfg.firmwareFlashEnd)
    (hfail : stepFailedRecoverably cfg variant s env = true) :
    (writeBinary cfg variant s env).outcome = .running ∧
    (writeBinary cfg variant s env).st.retry = retryBase cfg variant s env + 1 ∧
    retryBase cfg variant s env ≤ s.retry ∧
    ((writeBinary cfg variant s env).st.state = s.state ∨
      (s.state = .Initializing ∧
        (writeBinary cfg variant s env).st.state = .UnlockingFlash)) ∧
    (writeBinary cfg variant s env).st.flashPos = s.flashPos := by
  have hmax : ¬ s.retry > cfg.maxRetries := by omega
  cases hst : s.state
  case Initializing =>
    simp only [stepFailedRecoverably, hst, Bool.not_eq_true'] at hfail
    simp [writeBinary, if_neg hmax, hst, stepUnlocking, hfail, retryBase]
  case UnlockingFlash =>
    simp only [stepFailedRecoverably, hst, Bool.not_eq_true'] at hfail
    simp [writeBinary, if_neg hmax, hst, stepUnlocking, hfail, retryBase]
  case ErasingFlash =>
    rw [stepFailedRecoverably] at hfail
    simp only [hst, Bool.not_eq_true'] at hfail
    have hend : ¬ s.flashPos ≥ cfg.firmwareFlashEnd := by
      have := hpos hst
      omega
    by_cases hpre :
        IsSectorErased env.flash s.flashPos (sectorSizeAt cfg s.flashPos) = true
    · rw [eraseSucceeds] at hfail
      simp [hpre] at hfail
    · simp only [Bool.not_eq_true] at hpre
      rw [eraseSucceeds] at hfail
      rw [hpre] at hfail
      simp at hfail
      by_cases hok : env.eraseOk = true
      · have hafter := hfail hok
        simp [writeBinary, if_neg hmax, hst, stepErasing, hpre, hok, hafter, hend,
          retryBase, hst]
      · simp only [Bool.not_eq_true] at hok
        simp [writeBinary, if_neg hmax, hst, stepErasing, hpre, hok, hend,
          retryBase, hst]
  case WritingUpgrade =>
    rw [stepFailedRecoverably] at hfail
    simp only [hst] at hfail
    rw [writeFailsRecoverably] at hfail
    cases hacq : writeAcquire cfg variant s env with
    | wait s1 => rw [hacq] at hfail; simp at hfail
    | fatal => rw [hacq] at hfail; simp at hfail
    | transient =>
      simp only [writeBinary, if_neg hmax, hst, stepWriting, hacq]
      simp [retryBase, hst, hacq]
    | ready s1 =>
      rw [hacq] at hfail
      rw [Bool.not_eq_true'] at hfail
      rw [Bool.and_eq_false_iff] at hfail
      have hr1 := writeAcquire_ready cfg variant s env s1 hacq
      simp only [writeBinary, if_neg hmax, hst, stepWriting, hacq]
      have hres :
          (match (motive := AcquireResult → StepResult) AcquireResult.ready s1 with
            | .transient => ⟨.running, { s with retry := s.retry + 1 }, false⟩
            | .fatal => ⟨.fatalReset, s, false⟩
            | .wait s1 => ⟨.running, s1, false⟩
            | .ready s1 => (⟨.running, { s1 with retry := s1.retry + 1 }, false⟩ : StepResult))
          = ⟨.running, { s1 with retry := s1.retry + 1 }, false⟩ := rfl
      rcases hfail with hfail | hfail
      · simp only [hfail, Bool.false_eq_true, if_false]
        refine ⟨by trivial, by simp [retryBase, hst, hacq], ?_, ?_, ?_⟩
        · rcases hr1.1 with h1 | h1 <;> simp [retryBase, hst, hacq] <;> omega
        · exact Or.inl (by simpa using hr1.2.1.trans hst)
        · simpa using hr1.2.2.1
      · by_cases hok : env.writeOk = true
        · simp only [hok, if_true, hfail, Bool.false_eq_true, if_false]
          refine ⟨by trivial, by simp [retryBase, hst, hacq], ?_, ?_, ?_⟩
          · rcases hr1.1 with h1 | h1 <;> simp [retryBase, hst, hacq] <;> omega
          · exact Or.inl (by simpa using hr1.2.1.trans hst)
          · simpa using hr1.2.2.1
        · simp only [Bool.not_eq_true] at hok
          simp only [hok, Bool.false_eq_true, if_false]
          refine ⟨by trivial, by simp [retryBase, hst, hacq], ?_, ?_, ?_⟩
          · rcases hr1.1 with h1 | h1 <;> simp [retryBase, hst, hacq] <;> omega
          · exact Or.inl (by simpa using hr1.2.1.trans hst)
          · simpa using hr1.2.2.1
  case VerifyingChecksum =>
    rw [stepFailedRecoverably] at hfail
    simp only [hst] at hfail
    simp at hfail
  case SendingChecksumOK =>
    rw [stepFailedRecoverably] at hfail
    simp only [hst] at hfail
    simp at hfail
  case SendingChecksumError =>
    rw [stepFailedRecoverably] at hfail
    simp only [hst] at hfail
    simp at hfail
  case LockingFlash =>
    simp only [stepFailedRecoverably, hst, Bool.not_eq_true'] at hfail
    simp [writeBinary, if_neg hmax, hst, stepLocking, hfail, retryBase]

/-- Every continuing invocation leaves the retry counter at most one above
the configured maximum, so the fatal gate of the next invocation fires
before the counter could ever be observed beyond the maximum by a step. -/
theorem writeBinary_retry_bound (cfg : Config) (variant : Variant) (s : MachineState)
    (env : Env) (hr : s.retry ≤ cfg.maxRetries) :
    (writeBinary cfg variant s env).outcome = .running →
      (writeBinary cfg variant s env).st.retry ≤ cfg.maxRetries + 1 := by
  have hmax : ¬ s.retry > cfg.maxRetries := by omega
  cases hst : s.state
  case Initializing =>
    simp only [writeBinary, if_neg hmax, hst, stepUnlocking]
    (repeat' split) <;> (intro _; simp; all_goals omega)
  case UnlockingFlash =>
    simp only [writeBinary, if_neg hmax, hst, stepUnlocking]
    (repeat' split) <;> (intro _; simp; all_goals omega)
  case ErasingFlash =>
    simp only [writeBinary, if_neg hmax, hst, stepErasing]
    (repeat' split) <;> (intro _; simp; all_goals omega)
  case WritingUpgrade =>
    simp only [writeBinary, if_neg hmax, hst, stepWriting]
    cases hacq : writeAcquire cfg variant s env with
    | transient => intro _; simp; omega
    | fatal => intro h; simp at h
    | wait s1 =>
      intro _
      have hw := (writeAcquire_wait cfg variant s env s1 hacq).1
      show s1.retry ≤ cfg.maxRetries + 1
      omega
    | ready s1 =>
      have hw := (writeAcquire_ready cfg variant s env s1 hacq).1
      intro _
      by_cases hok : env.writeOk = true
      · by_cases hmem :
            memcmpEq s1.readData s1.bytesWritten env.flashAfterOp s1.flashPos
              cfg.pageSize = true
        · simp only [hok, hmem, if_true]
          (repeat' split) <;> simp
        · simp only [Bool.not_eq_true] at hmem
          simp only [hok, hmem, Bool.false_eq_true, if_false, if_true]
          show s1.retry + 1 ≤ cfg.maxRetries + 1
          rcases hw with h1 | h1 <;> omega
      · simp only [Bool.not_eq_true] at hok
        simp only [hok, Bool.false_eq_true, if_false]
        show s1.retry + 1 ≤ cfg.maxRetries + 1
        rcases hw with h1 | h1 <;> omega
  case VerifyingChecksum =>
    cases variant <;>
      simp only [writeBinary, if_neg hmax, hst, stepVerifying] <;>
      (repeat' split) <;> intro _ <;> ((try simp); all_goals omega)
  case SendingChecksumOK =>
    cases variant <;>
      simp only [writeBinary, if_neg hmax, hst, stepSendingOK] <;>
      (repeat' split) <;> intro _ <;> ((try simp); all_goals omega)
  case SendingChecksumError =>
    cases variant <;>
      simp only [writeBinary, if_neg hmax, hst, stepSendingError] <;>
      (repeat' split) <;> intro _ <;> ((try simp); all_goals omega)
  case LockingFlash =>
    simp only [writeBinary, if_neg hmax, hst, stepLocking]
    (repeat' split) <;> intro _ <;> ((try simp); all_goals omega)

/-- The acknowledgement-state invariant (retry counter zero in
`SendingChecksumOK` and `SendingChecksumError`) is preserved by every
invocation of `writeBinary`. -/
theorem writeBinary_ack_inv (cfg : Config) (variant : Variant) (s : MachineState)
    (env : Env) (hr : s.retry ≤ cfg.maxRetries) (hInv : ackStatesRetryZero s) :
    ackStatesRetryZero (writeBinary cfg variant s env).st := by
  have hmax : ¬ s.retry > cfg.maxRetries := by omega
  cases hst : s.state
  case Initializing =>
    simp only [writeBinary, if_neg hmax, hst, stepUnlocking]
    (repeat' split) <;> (intro hc; rcases hc with hc | hc <;> simp at hc)
  case UnlockingFlash =>
    simp only [writeBinary, if_neg hmax, hst, stepUnlocking]
    (repeat' split) <;> (intro hc; rcases hc with hc | hc <;> simp at hc)
  case ErasingFlash =>
    simp only [writeBinary, if_neg hmax, hst, stepErasing]
    (repeat' split) <;> (intro hc; rcases hc with hc | hc <;> simp [hst] at hc)
  case WritingUpgrade =>
    simp only [writeBinary, if_neg hmax, hst, stepWriting]
    cases hacq : writeAcquire cfg variant s env with
    | transient => intro hc; rcases hc with hc | hc <;> simp [hst] at hc
    | fatal => intro hc; rcases hc with hc | hc <;> simp [hst] at hc
    | wait s1 =>
      have hs1 : s1.state = ProcessState.WritingUpgrade :=
        ((writeAcquire_wait cfg variant s env s1 hacq).2.1).trans hst
      intro hc
      rcases hc with hc | hc <;> simp [hs1] at hc
    | ready s1 =>
      have hs1 : s1.state = ProcessState.WritingUpgrade :=
        ((writeAcquire_ready cfg variant s env s1 hacq).2.1).trans hst
      (repeat' split)
      all_goals intro hc
      all_goals rcases hc with hc | hc
      all_goals try simp [hs1, hst] at hc
      all_goals simp_all
  case VerifyingChecksum =>
    cases variant with
    | file =>
      simp only [writeBinary, if_neg hmax, hst]
      intro hc
      rcases hc with hc | hc <;> (rw [hst] at hc; cases hc)
    | spi =>
      simp only [writeBinary, if_neg hmax, hst, stepVerifying]
      (repeat' split) <;> (intro hc; first | rfl | exact hInv hc)
  case SendingChecksumOK =>
    cases variant with
    | file =>
      simp only [writeBinary, if_neg hmax, hst]
      intro _
      exact hInv (Or.inl hst)
    | spi =>
      simp only [writeBinary, if_neg hmax, hst, stepSendingOK]
      (repeat' split) <;> (intro _; exact hInv (Or.inl hst))
  case SendingChecksumError =>
    cases variant with
    | file =>
      simp only [writeBinary, if_neg hmax, hst]
      intro _
      exact hInv (Or.inr hst)
    | spi =>
      simp only [writeBinary, if_neg hmax, hst, stepSendingError]
      (repeat' split) <;> (intro _; first | rfl | exact hInv (Or.inr hst))
  case LockingFlash =>
    simp only [writeBinary, if_neg hmax, hst, stepLocking]
    (repeat' split) <;>
      (intro hc; rcases hc with hc | hc <;> simp [hst] at hc)

/-- Claim C3: for every state of the machine, the shared retry counter is
reset to zero immediately after any successful step (unless the machine
reboots into the new firmware at that very step); it is incremented by
exactly one on any recoverable failure, with the identical step
re-attempted next iteration (state tag — up to the one-shot `Initializing`
entry transition — and flash cursor unchanged); and a fatal abort is
triggered before the counter is ever observed to exceed the configured
maximum: a call entered beyond the maximum aborts before any step runs,
and every continuing call leaves the counter at most one above the
maximum. The two hypotheses are reachability invariants of the machine:
the retry counter is zero in the acknowledgement states (shown preserved
in the last conjunct), and the cursor is inside the region while
erasing. -/
theorem retry_policy (cfg : Config) (variant : Variant) (s : MachineState) (env : Env)
    (hInv : ackStatesRetryZero s)
    (hpos : s.state = .ErasingFlash → s.flashPos < cfg.firmwareFlashEnd) :
    (cfg.maxRetries < s.retry →
      writeBinary cfg variant s env = ⟨.fatalReset, s, false⟩) ∧
    (s.retry ≤ cfg.maxRetries →
      (stepSucceeded cfg variant s env = true →
        (writeBinary cfg variant s env).outcome = .successReset ∨
        (writeBinary cfg variant s env).st.retry = 0) ∧
      (stepFailedRecoverably cfg variant s env = true →
        (writeBinary cfg variant s env).outcome = .running ∧
        (writeBinary cfg variant s env).st.retry = retryBase cfg variant s env + 1 ∧
        retryBase cfg variant s env ≤ s.retry ∧
        ((writeBinary cfg variant s env).st.state = s.state ∨
          (s.state = .Initializing ∧
            (writeBinary cfg variant s env).st.state = .UnlockingFlash)) ∧
        (writeBinary cfg variant s env).st.flashPos = s.flashPos) ∧
      ((writeBinary cfg variant s env).outcome = .running →
        (writeBinary cfg variant s env).st.retry ≤ cfg.maxRetries + 1) ∧
      ackStatesRetryZero (writeBinary cfg variant s env).st) := by
  refine ⟨writeBinary_fatal_gate cfg variant s env, ?_⟩
  intro hr
  exact ⟨writeBinary_success_resets cfg variant s env hr hInv,
    writeBinary_fail_increments cfg variant s env hr hpos,
    writeBinary_retry_bound cfg variant s env hr,
    writeBinary_ack_inv cfg variant s env hr hInv⟩

/-- Witness for the C3 theorem: a failed unlock at retry count zero leaves
the machine in the same state with the retry counter at exactly one. -/
theorem retry_policy_witness :
    (writeBinary cfg0 .file { st0 with state := .UnlockingFlash }
      { env0 with unlockOk := false }).st.retry = 1 ∧
    (writeBinary cfg0 .file { st0 with state := .UnlockingFlash }
      { env0 with unlockOk := false }).st.state = .UnlockingFlash := by
  have h := retry_policy cfg0 .file { st0 with state := .UnlockingFlash }
    { env0 with unlockOk := false }
    (by intro hcon; rcases hcon with hcon | hcon <;> simp [st0] at hcon)
    (by intro hcon; simp [st0] at hcon)
  have h2 := (h.2 (by decide)).2.1 (by decide)
  exact ⟨h2.2.1.trans (by decide), rfl⟩

end Iap
